import Mathlib

set_option maxRecDepth 8000

/-!
Verification development for the VALCEX SoDAR ingestion-and-repair pipeline
(`sodar_utils.py`, `extract.py`).

Shallow embedding conventions:
* numpy float cells are modelled as `ℚ` (all values the pipeline handles are
  decimal literals; no claim below hinges on binary rounding);
* raw SoDAR timestamps (e.g. `120314124500`) are modelled as `Nat`; the Python
  code slices their 12-character decimal string, which we render as the
  corresponding quotient/remainder arithmetic on a 12-digit number;
* a day's data cube `np.ndarray` of shape (bands × slots × heights) is a
  `List (List (List ℚ))`; fatal Python exceptions (`assert`, `ValueError`,
  `IndexError`, unbound locals) are `Except.error`.
-/

/-- The `MAX_TIMESTAMPS` from `sodar_utils.py`: 288 five-minute periods in 1 day. -/
def MAX_TIMESTAMPS : Nat := 288

/-- The `NO_DATA` from `sodar_utils.py`, as the rational cell sentinel. -/
def NO_DATA : ℚ := -1

/-- The `NIGHT_START_INDEX = 18*60//5` from `sodar_utils.py` (start at 1800). -/
def NIGHT_START_INDEX : Nat := 18 * 60 / 5

/-- The `NIGHT_STOP_INDEX = NIGHT_START_INDEX + 12*60//5 + 1` from `sodar_utils.py`
(stop at 0600 the next day, inclusive). -/
def NIGHT_STOP_INDEX : Nat := NIGHT_START_INDEX + 12 * 60 / 5 + 1

/-- The `NIGHT_SIZE = NIGHT_STOP_INDEX - NIGHT_START_INDEX` from `sodar_utils.py`. -/
def NIGHT_SIZE : Nat := NIGHT_STOP_INDEX - NIGHT_START_INDEX

/-- The `INTERPOLATE_RANGE` from `extract.py`: breadth of the interpolation search. -/
def INTERPOLATE_RANGE : Nat := 3

/-! ### Calendar arithmetic (CPython `datetime` model)

`SodarCollection.__init__` compares `datetime.datetime` objects via
`a == b - timedelta(minutes=5)`.  Two valid datetimes are equal iff their
absolute minute counts agree, and subtracting five minutes subtracts five from
the minute count, so the comparison is rendered through `toMinutes` below.
`daysBeforeYear` mirrors CPython's `_days_before_year`. -/

/-- Gregorian leap-year test, as used by `datetime.datetime`. -/
def isLeap (y : Nat) : Bool :=
  (y % 4 == 0 && y % 100 != 0) || y % 400 == 0

/-- Days in the given month (1-12) of a (non-)leap year. -/
def daysInMonth (leap : Bool) (m : Nat) : Nat :=
  if m = 2 then (if leap then 29 else 28)
  else if m = 4 ∨ m = 6 ∨ m = 9 ∨ m = 11 then 30
  else 31

/-- Days strictly before month `m` (1-12) within one year. -/
def daysBeforeMonth (leap : Bool) (m : Nat) : Nat :=
  let tbl : List Nat := [0, 0, 31, 59, 90, 120, 151, 181, 212, 243, 273, 304, 334]
  tbl.getD m 0 + (if leap && decide (2 < m) then 1 else 0)

/-- Days before January 1 of year `y` (CPython `_days_before_year`). -/
def daysBeforeYear (y : Nat) : Nat :=
  365 * (y - 1) + (y - 1) / 4 - (y - 1) / 100 + (y - 1) / 400

/-- A `datetime.datetime` value (seconds are always zero in this pipeline). -/
structure DateTime where
  year : Nat
  month : Nat
  day : Nat
  hour : Nat
  minute : Nat
deriving DecidableEq, Repr

/-- Absolute minute count of a datetime; two valid datetimes are equal as
Python objects iff these counts are equal. -/
def toMinutes (t : DateTime) : Nat :=
  ((daysBeforeYear t.year + daysBeforeMonth (isLeap t.year) t.month + (t.day - 1)) * 24
      + t.hour) * 60 + t.minute

/-- The `timestamp_to_datetime` from `sodar_utils.py`: slice the 12-digit decimal
string `YYMMDDhhmmss` into fields (year `2000 + YY`); `datetime.datetime`
raises `ValueError` (here `none`) on out-of-range fields. -/
def timestamp_to_datetime (ts : Nat) : Option DateTime :=
  let year := 2000 + ts / 10 ^ 10
  let month := ts / 10 ^ 8 % 100
  let day := ts / 10 ^ 6 % 100
  let hour := ts / 10 ^ 4 % 100
  let minute := ts / 10 ^ 2 % 100
  if 1 ≤ month ∧ month ≤ 12 ∧ 1 ≤ day ∧ day ≤ daysInMonth (isLeap year) month
      ∧ hour < 24 ∧ minute < 60 then
    some ⟨year, month, day, hour, minute⟩
  else
    none

/-! ### `read_sdr` (`sodar_utils.py`)

A line of an `.sdr` file is abstracted by its tag and the parse outcome of its
fixed-width pieces: a 6-character cell of a `VCL`/`DCL` body is `some v` when
Python's `float`/`int` accepts it and `none` when it raises `ValueError`
(including the empty slice obtained past the end of the line); an `H  ` body
is the list of `int` outcomes of its whitespace-separated tokens; an `SDR` line
carries the `int` outcome of `line[4:16]`.  Untagged lines are `other`. -/

inductive SdrLine where
  | hline (tokens : List (Option Int))
  | vcl (cells : List (Option ℚ))
  | dcl (cells : List (Option Int))
  | sdr (ts : Option Nat)
  | other
deriving DecidableEq, Repr

/-- Mutable state of the `read_sdr` line loop.  `lastVcl` is the Python local
`speed` (the body of the most recent `VCL` line): the `DCL` branch iterates
`while x < len(speed)`, so its cell count is the cell count of `lastVcl`, and
referencing it before any `VCL` line raises an unbound-local error. -/
structure RState where
  heights : List Int
  timestamps : List Nat
  speeds : List (List ℚ)
  dirs : List (List Int)
  lastVcl : Option (List (Option ℚ))
deriving Repr

/-- One iteration of the `read_sdr` line loop. -/
def readSdrStep (st : RState) : SdrLine → Except String RState
  | .hline tokens =>
      if st.heights.isEmpty then
        match tokens.mapM id with
        | some hs => .ok { st with heights := hs }
        | none => .error "ValueError: invalid height token"
      else .ok st
  | .vcl cells =>
      let speed_parse := cells.map (fun c => c.getD NO_DATA)
      if speed_parse.length = 39 then
        .ok { st with speeds := st.speeds ++ [speed_parse], lastVcl := some cells }
      else .error "AssertionError: len(speed_parse) != 39"
  | .dcl cells =>
      match st.lastVcl with
      | none => .error "UnboundLocalError: speed referenced before assignment"
      | some speed =>
          let dir_parse := (List.range speed.length).map
            (fun i => ((cells.getD i none).getD (-1 : Int)))
          if dir_parse.length = 39 then
            .ok { st with dirs := st.dirs ++ [dir_parse] }
          else .error "AssertionError: len(dir_parse) != 39"
  | .sdr ts =>
      match ts with
      | some t => .ok { st with timestamps := st.timestamps ++ [t] }
      | none => .error "ValueError: invalid timestamp literal"
  | .other => .ok st

/-- The `read_sdr` from `sodar_utils.py`: fold the line loop over the file, then
`assert(len(parsed_speeds) == len(parsed_directions) == len(timestamps))`.
Returns `(heights, timestamps, parsed_speeds, parsed_directions)`. -/
def read_sdr (lines : List SdrLine) :
    Except String (List Int × List Nat × List (List ℚ) × List (List Int)) := do
  let st ← lines.foldlM readSdrStep ⟨[], [], [], [], none⟩
  if st.speeds.length = st.dirs.length ∧ st.dirs.length = st.timestamps.length then
    .ok (st.heights, st.timestamps, st.speeds, st.dirs)
  else
    .error "AssertionError: record count mismatch"

/-- Number of `VCL` (speed) lines in a file. -/
def numVcl (lines : List SdrLine) : Nat :=
  lines.countP (fun l => match l with | .vcl _ => true | _ => false)

/-- Number of `DCL` (direction) lines in a file. -/
def numDcl (lines : List SdrLine) : Nat :=
  lines.countP (fun l => match l with | .dcl _ => true | _ => false)

/-- Number of `SDR` (timestamp) lines in a file. -/
def numSdr (lines : List SdrLine) : Nat :=
  lines.countP (fun l => match l with | .sdr _ => true | _ => false)

/-- The cell bodies of the `VCL` lines, in file order. -/
def vclBodies (lines : List SdrLine) : List (List (Option ℚ)) :=
  lines.filterMap (fun l => match l with | .vcl c => some c | _ => none)

/-- The cell bodies of the `DCL` lines, in file order. -/
def dclBodies (lines : List SdrLine) : List (List (Option Int)) :=
  lines.filterMap (fun l => match l with | .dcl c => some c | _ => none)

/-- Value vector produced from one `VCL` body: an unparseable cell is recorded
as the `NO_DATA` sentinel.  (`except ValueError: speed_parse.append(float(NO_DATA))`.) -/
def decodeSpeeds (cells : List (Option ℚ)) : List ℚ :=
  cells.map (fun c => c.getD NO_DATA)

/-- Value vector produced from one `DCL` body when the preceding `VCL` body had
39 cells: an unparseable or absent cell is recorded as `int(NO_DATA)`. -/
def decodeDirs (cells : List (Option Int)) : List Int :=
  (List.range 39).map (fun i => (cells.getD i none).getD (-1 : Int))

/-- Structural well-formedness of a file, tracking whether a `VCL` line has
occurred yet: every `VCL` body has exactly 39 cells, every `DCL` line is
preceded by some `VCL` line, and `H  ` tokens and `SDR` literals parse. -/
def wfFrom (hasVcl : Bool) : List SdrLine → Bool
  | [] => true
  | .hline tokens :: rest => (tokens.mapM id).isSome && wfFrom hasVcl rest
  | .vcl cells :: rest => cells.length == 39 && wfFrom true rest
  | .dcl _ :: rest => hasVcl && wfFrom hasVcl rest
  | .sdr ts :: rest => ts.isSome && wfFrom hasVcl rest
  | .other :: rest => wfFrom hasVcl rest

/-! ### `Sodar._extract_bands` (`sodar_utils.py`) -/

/-- The `timestamp_to_index` from `sodar_utils.py`: `(hour*60 + minute) // 5`
with `hour = time_str[6:8]` and `minute = time_str[8:10]` of the 12-digit
timestamp. -/
def timestamp_to_index (ts : Nat) : Nat :=
  ((ts / 10 ^ 4 % 100) * 60 + ts / 10 ^ 2 % 100) / 5

/-- A day's data cube, bands × slots × heights. -/
abbrev Cube := List (List (List ℚ))

/-- Write one cell `data[b][t][i] = v`; numpy raises `IndexError` when an
index is out of range. -/
def setCell (data : Cube) (b t i : Nat) (v : ℚ) : Except String Cube :=
  match data.get? b with
  | none => .error "IndexError: band"
  | some band =>
      match band.get? t with
      | none => .error "IndexError: slot"
      | some row =>
          if i < row.length then
            .ok (data.set b (band.set t (row.set i v)))
          else .error "IndexError: height"

/-- Project one parsed record (`speeds[j]`, `directions[j]`) into slot
`time_idx`: the inner `for i in range(len(speeds[j]))` loop of
`_extract_bands`. -/
def writeRecord (data : Cube) (t : Nat) (speeds : List ℚ) (dirs : List Int) :
    Except String Cube :=
  (List.range speeds.length).foldlM
    (fun d i => do
      let s := speeds.getD i 0
      let dir := dirs.getD i 0
      let d1 ← setCell d 0 t i s
      setCell d1 1 t i (dir : ℚ))
    data

/-- The synthetic gap-free timestamp sequence regenerated by `_extract_bands`
when a day had a record count different from `MAX_TIMESTAMPS`: slot `i` maps
to `int(base + hh + mm + '00')` with `hh, mm = divmod(i*5, 60)` zero-padded,
i.e. `base * 10^6 + hh * 10^4 + mm * 10^2`. -/
def regenTimestamps (base : Nat) : List Nat :=
  (List.range MAX_TIMESTAMPS).map
    (fun i => base * 10 ^ 6 + (i * 5 / 60) * 10 ^ 4 + (i * 5 % 60) * 10 ^ 2)

/-- The per-day source produced by `Sodar._extract_bands` (the spec's
`DaySource`). -/
structure DaySource where
  heights : List Int
  timestamps : List Nat
  data : Cube
deriving DecidableEq, Repr

/-- The `Sodar._extract_bands` from `sodar_utils.py`, applied to `read_sdr`
output: fill a `NO_DATA` cube of shape (2 × 288 × heights) with each record at
its slot (last write wins), then, if the record count is not exactly
`MAX_TIMESTAMPS`, discard the parsed timestamps and regenerate them from
`str(self.timestamps[0])[:6]` (the first record's `YYMMDD`, i.e. `ts / 10^6`
for a 12-digit timestamp) — `IndexError` when there is no record at all.
`projectRecords` is the outer `for j in range(len(speeds))` loop, fetching
`self.timestamps[j]` and projecting record `j` into its slot. -/
def projectRecords (timestamps : List Nat) (speeds : List (List ℚ))
    (directions : List (List Int)) (base : Cube) : Except String Cube :=
  (List.range speeds.length).foldlM
    (fun d j =>
      match timestamps.get? j with
      | none => .error "IndexError: timestamps[j]"
      | some ts => writeRecord d (timestamp_to_index ts) (speeds.getD j []) (directions.getD j []))
    base

def extractBands (heights : List Int) (timestamps : List Nat)
    (speeds : List (List ℚ)) (directions : List (List Int)) :
    Except String DaySource := do
  let data ← projectRecords timestamps speeds directions
    (List.replicate 2 (List.replicate MAX_TIMESTAMPS (List.replicate heights.length NO_DATA)))
  if timestamps.length = MAX_TIMESTAMPS then
    .ok ⟨heights, timestamps, data⟩
  else
    match timestamps.head? with
    | none => .error "IndexError: self.timestamps[0]"
    | some t0 => .ok ⟨heights, regenTimestamps (t0 / 10 ^ 6), data⟩

/-! ### `_FakeSource` and `SodarCollection.__init__` (`sodar_utils.py`)

A source name is the `MMDD` file-name prefix, a 4-digit zero-padded string
modelled as the number `mm * 100 + dd`; `name_to_datetime` turns it into
`datetime(2000, mm, dd)`, modelled as a day ordinal within the (leap) year
2000.  A source is the post-construction `Sodar` (or `_FakeSource`) object:
`isReal` records the Python `type(source) == Sodar` test. -/

structure Source where
  isReal : Bool
  name : Nat
  heights : List Int
  timestamps : List Nat
  data : Cube
deriving DecidableEq, Repr

/-- The `name_to_datetime` (for a non-file name): `datetime(2000, mm, dd)`,
as a zero-based day ordinal of year 2000 (a leap year). -/
def nameToDoy (name : Nat) : Nat :=
  daysBeforeMonth true (name / 100) + (name % 100) - 1

/-- Validity of the `datetime(2000, mm, dd)` constructor call made by
`name_to_datetime` (it raises `ValueError` otherwise). -/
def nameValid (name : Nat) : Bool :=
  let m := name / 100
  let d := name % 100
  1 ≤ m && m ≤ 12 && 1 ≤ d && d ≤ daysInMonth true m

/-- Month of a zero-based year-2000 day ordinal. -/
def doyToMonth (doy : Nat) : Nat :=
  (List.range 12).foldl (fun acc k => if daysBeforeMonth true (k + 1) ≤ doy then k + 1 else acc) 1

/-- The `datetime_to_name` applied to the year-2000 date with the given zero-based
day ordinal: the zero-padded `MMDD` string, as the number `mm * 100 + dd`. -/
def doyToName (doy : Nat) : Nat :=
  let m := doyToMonth doy
  m * 100 + (doy - daysBeforeMonth true m + 1)

/-- The `_FakeSource.__init__` from `sodar_utils.py`: an all-`NO_DATA` cube of
shape (2 × 288 × heights), and the template timestamps with their `MMDD`
digits (characters 2-6 of the 12-digit string) replaced by the fake name. -/
def mkFakeSource (name : Nat) (heights : List Int) (timestamps : List Nat) : Source where
  isReal := false
  name := name
  heights := heights
  timestamps := timestamps.map
    (fun ts => ts / 10 ^ 10 * 10 ^ 10 + name * 10 ^ 6 + ts % 10 ^ 6)
  data := List.replicate 2 (List.replicate MAX_TIMESTAMPS (List.replicate heights.length NO_DATA))

/-- The dates strictly between two day ordinals, ascending: the
`while fake_source_date < next_day` loop runs only when `delta.days > 1`. -/
def fakeDatesBetween (cur nxt : Nat) : List Nat :=
  if cur + 1 < nxt then (List.range (nxt - cur - 1)).map (fun k => cur + 1 + k) else []

/-- The source walk of `SodarCollection.__init__` after the first source:
before appending each real source, insert one `_FakeSource` per missing date,
built from `sources[0].heights` and `sources[0].timestamps`. -/
def buildSourceGo (first : Source) : Nat → List Source → List Source
  | _, [] => []
  | cur, s :: rest =>
      (fakeDatesBetween cur (nameToDoy s.name)).map
          (fun d => mkFakeSource (doyToName d) first.heights first.timestamps)
        ++ s :: buildSourceGo first (nameToDoy s.name) rest

/-- The final `self.sources` list of `SodarCollection.__init__`: the first
real source followed by the gap-filling walk. -/
def buildSourceList (sources : List Source) : List Source :=
  match sources with
  | [] => []
  | s0 :: rest => s0 :: buildSourceGo s0 (nameToDoy s0.name) rest

/-- The `np.concatenate((a, b), axis=1)` loop of `SodarCollection.__init__`:
starting from the first source's cube, join each further cube along the time
axis (bands are zipped, slot lists appended). -/
def concatDataset (srcs : List Source) : Cube :=
  match srcs with
  | [] => []
  | s :: rest => rest.foldl (fun acc t => List.zipWith (· ++ ·) acc t.data) s.data

/-- One entry of `self._night_index`. -/
structure NightDesc where
  name : Nat
  start : Nat
  stop : Nat
deriving DecidableEq, Repr

/-- The assembled collection (`SodarCollection` after `__init__`). -/
structure Collection where
  sources : List Source
  dataset : Cube
  rawTimestamps : List Nat
  timestamps : List DateTime
  heights : List Int
  nightIndex : List NightDesc
deriving DecidableEq, Repr

/-- The spacing assertion loop of `SodarCollection.__init__`: for every `i`,
`timestamps[i-1] == timestamps[i] - timedelta(minutes=5)`; on valid datetimes
this is equality of absolute minute counts shifted by 5. -/
def spacingOk : List DateTime → Bool
  | a :: b :: rest => (toMinutes b == toMinutes a + 5) && spacingOk (b :: rest)
  | _ => true

/-- The raw timestamp axis assembled by `SodarCollection.__init__`
(`self._timestamps`): the concatenation of the gap-filled sources'
timestamps. -/
def assembledRaw (found : List Source) : List Nat :=
  ((buildSourceList found).map Source.timestamps).flatten

/-- The `SodarCollection.__init__` from `sodar_utils.py`, starting from the list
of discovered real sources (`os.walk` order): assert at least one source,
convert each source name via `name_to_datetime` (`ValueError` on an invalid
date), insert fake sources for calendar gaps, concatenate cubes and
timestamps, build `self._day_index`/`self._night_index`, convert every raw
timestamp via `timestamp_to_datetime`, and assert five-minute spacing across
the whole axis. -/
def mkCollection (found : List Source) : Except String Collection :=
  if found.isEmpty then .error "AssertionError: len(sources) > 0"
  else if !(found.all (fun s => nameValid s.name)) then
    .error "ValueError: invalid source date"
  else
    let srcs := buildSourceList found
    let raw := assembledRaw found
    let nightIdx := (List.range (srcs.length - 1)).map
      (fun i =>
        { name := ((srcs.get? i).map Source.name).getD 0
          start := i * MAX_TIMESTAMPS + NIGHT_START_INDEX
          stop := i * MAX_TIMESTAMPS + NIGHT_STOP_INDEX : NightDesc })
    match raw.mapM timestamp_to_datetime with
    | none => .error "ValueError: invalid timestamp field"
    | some ts =>
        if spacingOk ts then
          .ok { sources := srcs
                dataset := concatDataset srcs
                rawTimestamps := raw
                timestamps := ts
                heights := ((srcs.head?).map Source.heights).getD []
                nightIndex := nightIdx }
        else .error "AssertionError: a == b - timedelta(minutes=5)"

/-! ### `SodarCollection.night_array` (`sodar_utils.py`)

The requested band is passed as its resolved `SODAR_FIELDS` index (the
`plural_names` lookup maps the band-name string to this index).  The numpy
`reshape(num_nights, NIGHT_SIZE, len(self.heights))` of the concatenated night
slices is rendered as regrouping the concatenated slot rows into chunks of
`NIGHT_SIZE`, with the same size check numpy performs (each slot row keeps its
height values). -/

/-- Split a list into consecutive chunks of `k` elements (fuelled recursion;
`fuel ≥ l.length` suffices since every step with `k > 0` shortens `l`). -/
def chunkGo (k : Nat) : Nat → List α → List (List α)
  | 0, _ => []
  | fuel + 1, l => if k = 0 ∨ l.isEmpty then [] else l.take k :: chunkGo k fuel (l.drop k)

/-- Split a list into consecutive chunks of `k` elements. -/
def chunkList (k : Nat) (l : List α) : List (List α) :=
  chunkGo k l.length l

/-- The night-descriptor selection of `night_array`: an explicit
`select_nights` list picks, in `self._night_index` order, each descriptor
whose name occurs in the list (the inner loop breaks after the first hit);
otherwise `use_all` takes everything; otherwise every adjacent source pair
that is fully (or, with `partial`, half) real. -/
def selectNightIndex (c : Collection) (partialFlag useAll : Bool)
    (selectNights : Option (List Nat)) : List NightDesc :=
  match selectNights with
  | some sel => c.nightIndex.filter (fun night => sel.any (fun s => night.name == s))
  | none =>
      if useAll then c.nightIndex
      else
        (List.range (c.sources.length - 1)).filterMap
          (fun j =>
            let prev := c.sources.get? j
            let cur := c.sources.get? (j + 1)
            let prevReal := ((prev.map Source.isReal).getD false)
            let curReal := ((cur.map Source.isReal).getD false)
            if prevReal && curReal then c.nightIndex.get? j
            else if partialFlag && (prevReal || curReal) then c.nightIndex.get? j
            else none)

/-- The concatenation loop of `night_array`: slice
`band_data[night['start']:night['stop']]` for each selected descriptor and
join the slices along the slot axis (`np.concatenate(..., axis=0)`). -/
def nightSlices (bandData : List (List ℚ)) (nightIndex : List NightDesc) :
    List (List ℚ) :=
  (nightIndex.map
    (fun night => (bandData.drop night.start).take (night.stop - night.start))).flatten

/-- The `SodarCollection.night_array` from `sodar_utils.py`: select descriptors,
raise `ValueError` when none were selected, slice and concatenate the night
windows of the requested band, and reshape to
`(num_nights, NIGHT_SIZE, len(self.heights))` — numpy accepts the reshape
exactly when the concatenated slot count is `num_nights * NIGHT_SIZE`. -/
def night_array (c : Collection) (band : Nat) (partialFlag useAll : Bool)
    (selectNights : Option (List Nat)) :
    Except String (List (List (List ℚ)) × List NightDesc) :=
  if (selectNightIndex c partialFlag useAll selectNights).isEmpty then
    .error "ValueError: No nights were available."
  else
    match c.dataset[band]? with
    | none => .error "IndexError: band"
    | some bandData =>
        if (nightSlices bandData (selectNightIndex c partialFlag useAll selectNights)).length
            = (selectNightIndex c partialFlag useAll selectNights).length * NIGHT_SIZE then
          .ok (chunkList NIGHT_SIZE
                (nightSlices bandData (selectNightIndex c partialFlag useAll selectNights)),
              selectNightIndex c partialFlag useAll selectNights)
        else .error "ValueError: cannot reshape"

/-! ### `extract.py`: nodata policies -/

/-- Nodata policy flag `RAW` from `extract.py`. -/
def RAW : Nat := 0

/-- Nodata policy flag `CLAMP` from `extract.py`. -/
def CLAMP : Nat := 1

/-- Nodata policy flag `INTERPOLATE` from `extract.py`. -/
def INTERPOLATE : Nat := 2

/-- Nodata policy flag `FILL` from `extract.py`. -/
def FILL : Nat := 4

/-- One extracted 2-D array (one night for one quantity), rows × columns. -/
abbrev Mat := List (List ℚ)

/-- A consumer-owned batch of extracted arrays (`result` in
`Classification.get`). -/
abbrev Batch := List Mat

/-- The inner scan of `_clamp` on one row, stated on the reversed row: drop
the trailing run of `-1.0` cells and overwrite it with the first value found
(`while i >= 0: if column[i] != -1.0: ... break`); a fully missing row is
returned unchanged (the loop never breaks). -/
def clampRev (l : List ℚ) : List ℚ :=
  match l.dropWhile (fun x => x == NO_DATA) with
  | [] => l
  | v :: rest =>
      List.replicate (l.takeWhile (fun x => x == NO_DATA)).length v ++ v :: rest

/-- The `_clamp`'s effect on one row of a subset: scan from the last column
backwards to the first non-missing cell and copy its value over the trailing
columns. -/
def clampRow (row : List ℚ) : List ℚ :=
  (clampRev row.reverse).reverse

/-- The `_clamp`'s effect on one subset (its middle `for column in subset` loop).
The Python loop bounds the scan by `data[0].shape[1]`; every call site passes
uniformly shaped subsets (reshape output), for which the bound equals each
row's own length. -/
def clampMat (m : Mat) : Mat :=
  m.map clampRow

/-- The `_clamp` from `extract.py`. -/
def _clamp (data : Batch) : Batch :=
  data.map clampMat

/-- Read `subset[r][j]`; all reads performed by `_interpolate` are guarded to
lie inside a uniformly shaped subset. -/
def getCell (m : Mat) (r j : Nat) : ℚ :=
  (m.getD r []).getD j NO_DATA

/-- The forward (`top`) read indices of `_interpolate` for a missing cell in
column `c` of a subset of width `w`: the loop
`while top < shape[1]-1 and top-col <= INTERPOLATE_RANGE: top += 1; ...`
reads `subset[row][c+k+1]` for each `k ≤ INTERPOLATE_RANGE` with
`c + k < w - 1`. -/
def fwdReads (w c : Nat) : List Nat :=
  (List.range (INTERPOLATE_RANGE + 1)).filterMap
    (fun k => if c + k < w - 1 then some (c + k + 1) else none)

/-- The backward (`bot`) read indices of `_interpolate`: the loop
`while bot > 0 and abs(bot-col) <= INTERPOLATE_RANGE: bot -= 1; ...`
reads `subset[row][c-k-1]` for each `k ≤ INTERPOLATE_RANGE` with `k < c`. -/
def bwdReads (c : Nat) : List Nat :=
  (List.range (INTERPOLATE_RANGE + 1)).filterMap
    (fun k => if k < c then some (c - k - 1) else none)

/-- The non-missing values at the forward read positions of a missing cell. -/
def fwdValues (w : Nat) (m : Mat) (r c : Nat) : List ℚ :=
  (fwdReads w c).filterMap
    (fun j => let v := getCell m r j; if v ≠ NO_DATA then some v else none)

/-- The non-missing values at the backward read positions of a missing cell. -/
def bwdValues (m : Mat) (r c : Nat) : List ℚ :=
  (bwdReads c).filterMap
    (fun j => let v := getCell m r j; if v ≠ NO_DATA then some v else none)

/-- One iteration of `_interpolate`'s main loop, for the missing cell
`(r, c)`: collect forward values; if none were found, bail (`continue`) before
any backward search; otherwise add the backward values and overwrite the cell
with the arithmetic mean of all collected values. -/
def interpStep (w : Nat) (m : Mat) (rc : Nat × Nat) : Mat :=
  let r := rc.1
  let c := rc.2
  let values := fwdValues w m r c
  if values = [] then m
  else
    let values := values ++ bwdValues m r c
    let mean := values.sum / (values.length : ℚ)
    m.set r ((m.getD r []).set c mean)

/-- The `np.where(subset == -1.0)`: the row-major list of missing positions. -/
def missingPositions (m : Mat) : List (Nat × Nat) :=
  (List.range m.length).flatMap
    (fun r => (List.range (m.getD r []).length).filterMap
      (fun c => if getCell m r c = NO_DATA then some (r, c) else none))

/-- The `_interpolate`'s effect on one subset: iterate over the pre-computed
missing positions in reverse row-major order (`missing[0][size-i-1]`),
mutating the subset in place as it goes. -/
def interpMat (w : Nat) (m : Mat) : Mat :=
  ((missingPositions m).reverse).foldl (interpStep w) m

/-- The `_interpolate` from `extract.py`; `shape = data[0].shape` is read once
from the first subset and bounds the column scans for every subset. -/
def _interpolate (data : Batch) : Batch :=
  let w := ((data.headD []).headD []).length
  data.map (interpMat w)

/-- The `_fill`'s effect on one subset: `subset[subset == -1.0] = value`. -/
def fillMat (value : ℚ) (m : Mat) : Mat :=
  m.map (fun row => row.map (fun x => if x == NO_DATA then value else x))

/-- The `_fill` from `extract.py`. -/
def _fill (data : Batch) (value : ℚ) : Batch :=
  data.map (fillMat value)

/-- The nodata-policy dispatch at the end of `Classification.get`
(`extract.py` lines 124-139), applied to the already-extracted batch:
`nodata = policy & 0b000111`, then `RAW` returns the batch unchanged, `CLAMP`,
`INTERPOLATE`, `CLAMP|INTERPOLATE` and `FILL` apply the repairs, and `FILL`
without a `fill_value` raises `ValueError` before any repair is applied. -/
def applyNodata (nodata : Nat) (result : Batch) (fillValue : Option ℚ) :
    Except String Batch :=
  if nodata = RAW then .ok result
  else if nodata = CLAMP then .ok (_clamp result)
  else if nodata = INTERPOLATE then .ok (_interpolate result)
  else if nodata = (CLAMP ||| INTERPOLATE) then .ok (_interpolate (_clamp result))
  else if nodata = FILL then
    match fillValue with
    | some v => .ok (_fill result v)
    | none => .error "Set FILL nodata policy but didn't specify fill_value parameter"
  else .error "Invalid nodata policy."

/-! ### Array ownership model for `Classification.get` (`extract.py`)

`Classification.get` never hands out the stored per-night arrays: line 96
copies each selected `x[field]` (`x[field].copy()`), and line 119 copies again
after the row slice (`x[:,min_row:max_row].copy()`); the repair policies then
mutate only those copies in place.  To state this aliasing fact we model the
numpy heap explicitly: a `Store` is an arena of 2-D arrays, a reference is an
arena index, `.copy()` allocates a fresh slot, and an in-place repair writes
through the references it is given. -/

/-- The numpy heap: an arena of 2-D arrays addressed by index. -/
structure Store where
  arrs : List Mat
deriving Repr

/-- Read the array behind a reference. -/
def readRef (st : Store) (r : Nat) : Mat :=
  st.arrs.getD r []

/-- Allocate a fresh array (`.copy()` target), returning its reference. -/
def alloc (st : Store) (m : Mat) : Store × Nat :=
  (⟨st.arrs ++ [m]⟩, st.arrs.length)

/-- The `x[:, min_row:max_row]`: keep all rows, slice the column range. -/
def sliceCols (m : Mat) (minRow maxRow : Nat) : Mat :=
  m.map (fun row => (row.drop minRow).take (maxRow - minRow))

/-- One iteration of a copying list comprehension: allocate a fresh array
holding `f` of the referenced array and record its reference. -/
def allocStep (f : Mat → Mat) (acc : Store × List Nat) (r : Nat) : Store × List Nat :=
  let (st', r') := alloc acc.1 (f (readRef acc.1 r))
  (st', acc.2 ++ [r'])

/-- Allocate, for each input reference, a fresh copy of `f` applied to the
referenced array, in order (one list comprehension of `Classification.get`). -/
def allocMapped (f : Mat → Mat) (st : Store) (rs : List Nat) : Store × List Nat :=
  rs.foldl (allocStep f) (st, [])

/-- The copying pipeline of `Classification.get`: line 96 copies each selected
dataset array (`[x[field].copy() for x in subset]`), line 119 copies each of
those again through the row slice (`[x[:,min_row:max_row].copy() for x in
result]`).  Returns the new heap and the references handed to the caller. -/
def classificationGet (st : Store) (datasetRefs : List Nat) (minRow maxRow : Nat) :
    Store × List Nat :=
  let (st1, rs1) := allocMapped id st datasetRefs
  allocMapped (fun m => sliceCols m minRow maxRow) st1 rs1

/-- An in-place repair pass: overwrite each referenced array with `f` of its
current value (`_clamp`/`_interpolate`/`_fill` mutate their argument arrays). -/
def repairInPlace (f : Mat → Mat) (st : Store) (rs : List Nat) : Store :=
  rs.foldl (fun s r => ⟨s.arrs.set r (f (readRef s r))⟩) st

/-! ### Concrete fixtures used by witnesses and counterexamples -/

/-- A minimal stand-in source record for exercising `night_array` selection. -/
def srcStub (name : Nat) : Source := ⟨true, name, [0], [], []⟩

/-- A small assembled collection (three day sources, one band of 649 slot
rows, two night descriptors) for exercising `night_array`. -/
def collW : Collection :=
  { sources := [srcStub 101, srcStub 102, srcStub 103]
    dataset := [List.replicate 649 [(0 : ℚ)]]
    rawTimestamps := []
    timestamps := []
    heights := [0]
    nightIndex := [⟨101, 216, 361⟩, ⟨102, 504, 649⟩] }

/-- The result of `night_array` on `collW` with the duplicated, unordered
label list `[102, 101, 101]`. -/
def resW : List (List (List ℚ)) × List NightDesc :=
  (night_array collW 0 false false (some [102, 101, 101])).toOption.getD ([], [])

/-- A one-array arena for exercising the copy/repair pipeline. -/
def stW : Store := ⟨[[[NO_DATA, 3]]]⟩

/-- Shape predicate for a day cube: 2 bands × `MAX_TIMESTAMPS` slots × `h`
height cells. -/
def CubeShaped (h : Nat) (d : Cube) : Prop :=
  d.length = 2 ∧ ∀ b ∈ d, b.length = MAX_TIMESTAMPS ∧ ∀ row ∈ b, row.length = h

/-- A day's parsed timestamp list with exactly `MAX_TIMESTAMPS` records of
which two are identical (287 distinct records): slot 0's timestamp appears
twice and the remaining slots are the canonical 5-minute grid. -/
def dupTs : List Nat :=
  120101000000 :: 120101000000 ::
    (List.range 286).map
      (fun i => 120101 * 10 ^ 6 + ((i + 2) * 5 / 60) * 10 ^ 4 + ((i + 2) * 5 % 60) * 10 ^ 2)

/-- The `DaySource` built from a single-record day (sparse file): used to
exercise `extract_bands_amended`. -/
def sparseDay : DaySource :=
  (extractBands [5] [120101000000] [[]] [[]]).toOption.getD ⟨[], [], []⟩

/-- A discovered source whose two raw timestamps are ten minutes apart:
the assembled axis violates the five-minute invariant. -/
def gapSource : Source :=
  { isReal := true, name := 101, heights := [10]
    timestamps := [120101000000, 120101001000], data := [] }

/-- A full real day source for month-day `mmdd` of 2012: canonical 5-minute
timestamps and a constant-valued 2 × 288 × 1 cube. -/
def dayW (mmdd : Nat) : Source where
  isReal := true
  name := mmdd
  heights := [10]
  timestamps := regenTimestamps (120000 + mmdd)
  data := List.replicate 2 (List.replicate MAX_TIMESTAMPS [(0 : ℚ)])

/-- The collection assembled from two consecutive full real days. -/
def collTwo : Collection :=
  (mkCollection [dayW 101, dayW 102]).toOption.getD ⟨[], [], [], [], [], []⟩

/-! ### Helper lemmas -/

theorem dropWhile_head_false {α : Type} {p : α → Bool} :
    ∀ {l : List α} {v : α} {rest : List α}, l.dropWhile p = v :: rest → p v = false := by
  intro l
  induction l with
  | nil => intro v rest h; simp [List.dropWhile] at h
  | cons a l ih =>
      intro v rest h
      by_cases ha : p a = true
      · rw [List.dropWhile_cons_of_pos ha] at h
        exact ih h
      · rw [List.dropWhile_cons_of_neg ha] at h
        cases h
        simpa using ha

theorem clampRev_cons_of_ne {v : ℚ} (hv : (v == NO_DATA) = false) (rest : List ℚ) :
    clampRev (v :: rest) = v :: rest := by
  simp [clampRev, List.dropWhile_cons, List.takeWhile_cons, hv]

theorem clampRev_idem (l : List ℚ) : clampRev (clampRev l) = clampRev l := by
  rcases h : l.dropWhile (fun x => x == NO_DATA) with _ | ⟨v, rest⟩
  · have hl : clampRev l = l := by simp [clampRev, h]
    rw [hl, hl]
  · have hv : (v == NO_DATA) = false :=
      dropWhile_head_false (p := fun x => x == NO_DATA) h
    have hl : clampRev l =
        List.replicate (l.takeWhile (fun x => x == NO_DATA)).length v ++ v :: rest := by
      simp [clampRev, h]
    rw [hl]
    rcases hk : (l.takeWhile (fun x => x == NO_DATA)).length with _ | k
    · simpa using clampRev_cons_of_ne hv rest
    · have : List.replicate (k + 1) v ++ v :: rest
          = v :: (List.replicate k v ++ v :: rest) := by
        simp [List.replicate_succ]
      rw [this, clampRev_cons_of_ne hv]

theorem clampRow_idem (row : List ℚ) : clampRow (clampRow row) = clampRow row := by
  simp [clampRow, List.reverse_reverse, clampRev_idem]

theorem clampMat_idem (m : Mat) : clampMat (clampMat m) = clampMat m := by
  simp only [clampMat, List.map_map]
  apply List.map_congr_left
  intro row _
  exact clampRow_idem row

theorem dropWhile_replicate_nodata (n : Nat) :
    (List.replicate n NO_DATA).dropWhile (fun x => x == NO_DATA) = [] := by
  induction n with
  | zero => simp
  | succ n ih => simp [List.replicate_succ, List.dropWhile_cons, ih]

/-- C8 (confirmed).  Clamp is idempotent: applying the `_clamp` policy
twice to any batch yields exactly the arrays of a single application, and a
row that is entirely missing is left unchanged by `_clamp`'s row scan. -/
theorem clamp_idempotent :
    (∀ data : Batch, _clamp (_clamp data) = _clamp data)
    ∧ ∀ n : Nat, clampRow (List.replicate n NO_DATA) = List.replicate n NO_DATA := by
  constructor
  · intro data
    simp only [_clamp, List.map_map]
    apply List.map_congr_left
    intro m _
    exact clampMat_idem m
  · intro n
    simp [clampRow, clampRev, List.reverse_replicate, dropWhile_replicate_nodata]

theorem interp_example_eval :
    _interpolate [[[-1, -1, 5, -1, -1]]] = [[[5, 5, 5, -1, -1]]] := by
  norm_num [_interpolate, interpMat, missingPositions, interpStep, fwdValues, bwdValues,
    fwdReads, bwdReads, getCell, INTERPOLATE_RANGE, NO_DATA, List.filterMap,
    List.range_succ]
  simp

/-- C2 (counterexample).  The claim predicts that on the row
`[-1, -1, 5, -1, -1]` the two gaps adjacent to the value 5 resolve to 5 and
the two outer cells stay `-1`, i.e. the result `[-1, 5, 5, 5, -1]`.  The code
disagrees: `_interpolate` bails out on a missing cell as soon as the forward
(`top`) scan finds nothing — the backward scan never runs for it — and it
processes the pre-computed missing positions in reverse row-major order while
mutating the row in place, so the actual result is `[5, 5, 5, -1, -1]`. -/
theorem interpolate_example_counterexample :
    _interpolate [[[-1, -1, 5, -1, -1]]] = [[[5, 5, 5, -1, -1]]]
    ∧ _interpolate [[[-1, -1, 5, -1, -1]]] ≠ [[[-1, 5, 5, 5, -1]]] := by
  refine ⟨interp_example_eval, ?_⟩
  rw [interp_example_eval]
  decide

/-- C2 (amended).  For every missing cell, `_interpolate` first scans
forward (`top`) within the window and collects the non-missing cells found;
if that forward scan found nothing the cell is skipped outright — the
backward (`bot`) scan is never consulted for it; otherwise the backward scan
adds its non-missing cells and the cell becomes the arithmetic mean of all
collected values.  Missing positions are processed in reverse row-major order
against the mutating row, so `[-1, -1, 5, -1, -1]` becomes
`[5, 5, 5, -1, -1]`: the two cells left of 5 resolve to 5, the two cells
right of it stay `-1`. -/
theorem interpolate_amended :
    _interpolate [[[-1, -1, 5, -1, -1]]] = [[[5, 5, 5, -1, -1]]]
    ∧ ∀ (w : Nat) (m : Mat) (r c : Nat),
        fwdValues w m r c = [] → interpStep w m (r, c) = m := by
  constructor
  · exact interp_example_eval
  · intro w m r c h
    simp [interpStep, h]

/-- Witness for `interpolate_amended` at the missing cell `(0, 4)` of the
example row: the forward scan finds nothing, so the cell is left untouched. -/
theorem interpolate_amended_witness :
    fwdValues 5 [[-1, -1, 5, -1, -1]] 0 4 = []
    ∧ interpStep 5 [[-1, -1, 5, -1, -1]] (0, 4) = [[-1, -1, 5, -1, -1]] :=
  ⟨by decide, interpolate_amended.2 5 [[-1, -1, 5, -1, -1]] 0 4 (by decide)⟩

/-- C6 (counterexample).  The claim asserts that after Fill with a
supplied value `v` no sentinel cells remain anywhere in the batch.  That
fails for the legal call `fill_value = -1.0` (any non-`None` value passes the
guard): `subset[subset == -1.0] = -1.0` rewrites every sentinel to itself, so
the batch `[[[-1]]]` still holds a sentinel cell after Fill completes. -/
theorem fill_value_counterexample :
    applyNodata FILL [[[NO_DATA]]] (some NO_DATA) = .ok [[[NO_DATA]]] := by
  simp [applyNodata, RAW, CLAMP, INTERPOLATE, FILL, _fill, fillMat]

/-- C6 (amended).  Requesting the `FILL` policy without a fill value
raises the configuration `ValueError` (no repair is applied — no batch is
produced at all); with a supplied fill value `v` the call returns
`_fill result v`, in which every cell previously equal to the sentinel holds
`v` and every other cell is unchanged; provided `v` is not itself the
sentinel, no sentinel cell remains anywhere in the batch. -/
theorem fill_amended :
    (∀ b : Batch, applyNodata FILL b none
        = .error "Set FILL nodata policy but didn't specify fill_value parameter")
    ∧ (∀ (b : Batch) (v : ℚ), applyNodata FILL b (some v) = .ok (_fill b v))
    ∧ (∀ (b : Batch) (v : ℚ), v ≠ NO_DATA →
        ∀ m ∈ _fill b v, ∀ row ∈ m, ∀ x ∈ row, x ≠ NO_DATA)
    ∧ (∀ (b : Batch) (v : ℚ) (i r c : Nat) (x : ℚ),
        ((b[i]?.bind (fun m => m[r]?)).bind (fun row => row[c]?)) = some x →
        (((_fill b v)[i]?.bind (fun m => m[r]?)).bind (fun row => row[c]?))
          = some (if x = NO_DATA then v else x)) := by
  refine ⟨?_, ?_, ?_, ?_⟩
  · intro b
    simp [applyNodata, RAW, CLAMP, INTERPOLATE, FILL]
  · intro b v
    simp [applyNodata, RAW, CLAMP, INTERPOLATE, FILL]
  · intro b v hv m hm row hrow x hx
    simp only [_fill, List.mem_map] at hm
    obtain ⟨m', _, rfl⟩ := hm
    simp only [fillMat, List.mem_map] at hrow
    obtain ⟨row', _, rfl⟩ := hrow
    simp only [List.mem_map] at hx
    obtain ⟨x', _, rfl⟩ := hx
    by_cases h : (x' == NO_DATA) = true
    · simpa [h] using hv
    · simpa [h] using (by simpa using h : ¬ x' = NO_DATA)
  · intro b v i r c x hx
    rcases hbi : b[i]? with _ | m
    · simp [hbi] at hx
    rcases hmr : m[r]? with _ | row
    · simp [hbi, hmr] at hx
    rcases hrc : row[c]? with _ | y
    · simp [hbi, hmr, hrc] at hx
    simp only [hbi, hmr, hrc, Option.some_bind', Option.some.injEq] at hx
    subst hx
    simp [_fill, fillMat, List.getElem?_map, hbi, hmr, hrc, beq_iff_eq]

/-- Witness for `fill_amended`: filling the batch `[[[-1, 2]]]` with `0`
leaves no sentinel cell. -/
theorem fill_amended_witness :
    (0 : ℚ) ≠ NO_DATA
    ∧ ∀ m ∈ _fill [[[NO_DATA, 2]]] 0, ∀ row ∈ m, ∀ x ∈ row, x ≠ NO_DATA :=
  ⟨by norm_num [NO_DATA], fill_amended.2.2.1 [[[NO_DATA, 2]]] 0 (by norm_num [NO_DATA])⟩

theorem night_array_ok_inv {c : Collection} {band : Nat} {p u : Bool}
    {sn : Option (List Nat)} {nights : List (List (List ℚ))} {idx : List NightDesc}
    (h : night_array c band p u sn = .ok (nights, idx)) :
    idx = selectNightIndex c p u sn
    ∧ ∃ bandData, c.dataset[band]? = some bandData
        ∧ nights = chunkList NIGHT_SIZE (nightSlices bandData idx)
        ∧ (nightSlices bandData idx).length = idx.length * NIGHT_SIZE := by
  unfold night_array at h
  by_cases hE : (selectNightIndex c p u sn).isEmpty
  · rw [if_pos hE] at h
    cases h
  · rw [if_neg hE] at h
    rcases hD : c.dataset[band]? with _ | bandData
    · rw [hD] at h
      cases h
    · rw [hD] at h
      dsimp only at h
      by_cases hL : (nightSlices bandData (selectNightIndex c p u sn)).length
          = (selectNightIndex c p u sn).length * NIGHT_SIZE
      · rw [if_pos hL] at h
        rcases h with ⟨⟩
        exact ⟨rfl, bandData, rfl, rfl, hL⟩
      · rw [if_neg hL] at h
        cases h

/-- C10 (confirmed).  When `night_array` is called with an explicit
`select_nights` list and succeeds, the returned descriptor list is a sublist
of `self._night_index` (the collection's calendar order), contains each
descriptor no more often than the index itself does (the inner loop breaks
after the first matching label, so each descriptor is appended at most once),
and depends only on which labels occur in the caller's list — not on their
order or multiplicity. -/
theorem night_select_labels (c : Collection) (band : Nat) (p u : Bool)
    (sel : List Nat) (nights : List (List (List ℚ))) (idx : List NightDesc)
    (h : night_array c band p u (some sel) = .ok (nights, idx)) :
    idx.Sublist c.nightIndex
    ∧ (∀ d : NightDesc, idx.count d ≤ c.nightIndex.count d)
    ∧ ∀ sel' : List Nat, (∀ s : Nat, s ∈ sel ↔ s ∈ sel') →
        night_array c band p u (some sel') = .ok (nights, idx) := by
  obtain ⟨hidx, -⟩ := night_array_ok_inv h
  have hsub : idx.Sublist c.nightIndex := by
    rw [hidx]
    exact List.filter_sublist _
  refine ⟨hsub, fun d => hsub.count_le d, ?_⟩
  intro sel' hmem
  have hsel : selectNightIndex c p u (some sel') = selectNightIndex c p u (some sel) := by
    simp only [selectNightIndex]
    apply List.filter_congr
    intro n _
    apply Bool.eq_iff_iff.mpr
    simp only [List.any_eq_true]
    constructor
    · rintro ⟨s, hs, hb⟩
      exact ⟨s, (hmem s).mpr hs, hb⟩
    · rintro ⟨s, hs, hb⟩
      exact ⟨s, (hmem s).mp hs, hb⟩
  show night_array c band p u (some sel') = .ok (nights, idx)
  unfold night_array
  rw [hsel]
  exact h




/-- Witness for `night_select_labels`: on `collW` with labels
`[102, 101, 101]` extraction succeeds, its descriptor list is in calendar
order without duplicates, and the deduplicated reordered list `[101, 102]`
yields the same result. -/
theorem night_select_labels_witness :
    night_array collW 0 false false (some [102, 101, 101]) = .ok (resW.1, resW.2)
    ∧ (resW.2.Sublist collW.nightIndex
        ∧ (∀ d : NightDesc, resW.2.count d ≤ collW.nightIndex.count d)
        ∧ ∀ sel' : List Nat, (∀ s : Nat, s ∈ [102, 101, 101] ↔ s ∈ sel') →
            night_array collW 0 false false (some sel') = .ok (resW.1, resW.2)) :=
  ⟨rfl, night_select_labels collW 0 false false [102, 101, 101] resW.1 resW.2 rfl⟩

theorem allocFold_spec (f : Mat → Mat) :
    ∀ (rs : List Nat) (st : Store) (acc : List Nat),
      ((rs.foldl (allocStep f) (st, acc)).1.arrs.length = st.arrs.length + rs.length)
      ∧ (∀ q, q < st.arrs.length →
          readRef (rs.foldl (allocStep f) (st, acc)).1 q = readRef st q)
      ∧ (∀ r' ∈ (rs.foldl (allocStep f) (st, acc)).2, r' ∈ acc ∨ st.arrs.length ≤ r') := by
  intro rs
  induction rs with
  | nil =>
      exact fun st acc =>
        ⟨by simp, fun q _ => rfl, fun r' h => Or.inl (by simpa using h)⟩
  | cons r rs ih =>
      intro st acc
      have hstep : (r :: rs).foldl (allocStep f) (st, acc)
          = rs.foldl (allocStep f)
              (⟨st.arrs ++ [f (readRef st r)]⟩, acc ++ [st.arrs.length]) := by
        simp [List.foldl_cons, allocStep, alloc]
      obtain ⟨ih1, ih2, ih3⟩ :=
        ih (⟨st.arrs ++ [f (readRef st r)]⟩ : Store) (acc ++ [st.arrs.length])
      rw [hstep]
      refine ⟨?_, ?_, ?_⟩
      · simp only [ih1]
        simp
        omega
      · intro q hq
        rw [ih2 q (by simp; omega)]
        simp only [readRef]
        exact List.getD_append _ _ _ _ hq
      · intro r' hr'
        rcases ih3 r' hr' with h | h
        · rcases List.mem_append.mp h with h | h
          · exact Or.inl h
          · simp only [List.mem_singleton] at h
            omega
        · simp only [List.length_append, List.length_singleton] at h
          omega

theorem getD_set_ne {α : Type} (l : List α) (i j : Nat) (a d : α) (h : i ≠ j) :
    (l.set i a).getD j d = l.getD j d := by
  simp [List.getD, List.getElem?_set_ne h]

theorem repairInPlace_read (f : Mat → Mat) :
    ∀ (rs : List Nat) (st : Store) (q : Nat), (∀ r ∈ rs, q ≠ r) →
      readRef (repairInPlace f st rs) q = readRef st q := by
  intro rs
  induction rs with
  | nil => intro st q _; rfl
  | cons r rs ih =>
      intro st q hq
      have hstep : repairInPlace f st (r :: rs)
          = repairInPlace f ⟨st.arrs.set r (f (readRef st r))⟩ rs := rfl
      rw [hstep, ih _ q (fun r' hr' => hq r' (List.mem_cons_of_mem r hr'))]
      simp only [readRef]
      exact getD_set_ne st.arrs r q _ _ (Ne.symm (hq r (List.mem_cons_self r rs)))

/-- C9 (confirmed).  `Classification.get` hands out only freshly
allocated copies (line 96 `x[field].copy()` and line 119
`x[:,min_row:max_row].copy()`): every returned reference lies beyond the
pre-existing arena, so applying any in-place repair pass — in particular
`_clamp`, `_interpolate`, or `_fill` acting on single arrays — through the
returned references leaves every array of the stored dataset unchanged. -/
theorem get_repairs_copies_only (st : Store) (dsRefs : List Nat)
    (minRow maxRow : Nat) (hin : ∀ r ∈ dsRefs, r < st.arrs.length) :
    (∀ r' ∈ (classificationGet st dsRefs minRow maxRow).2, st.arrs.length ≤ r')
    ∧ ∀ (f : Mat → Mat), ∀ r ∈ dsRefs,
        readRef (repairInPlace f (classificationGet st dsRefs minRow maxRow).1
            (classificationGet st dsRefs minRow maxRow).2) r
          = readRef st r := by
  obtain ⟨a1, a2, a3⟩ := allocFold_spec id dsRefs st []
  obtain ⟨b1, b2, b3⟩ := allocFold_spec (fun m => sliceCols m minRow maxRow)
    (allocMapped id st dsRefs).2 (allocMapped id st dsRefs).1 []
  have hfst : (classificationGet st dsRefs minRow maxRow).1
      = ((allocMapped id st dsRefs).2.foldl
          (allocStep (fun m => sliceCols m minRow maxRow))
          ((allocMapped id st dsRefs).1, [])).1 := rfl
  have hsnd : (classificationGet st dsRefs minRow maxRow).2
      = ((allocMapped id st dsRefs).2.foldl
          (allocStep (fun m => sliceCols m minRow maxRow))
          ((allocMapped id st dsRefs).1, [])).2 := rfl
  have hlen1 : st.arrs.length ≤ (allocMapped id st dsRefs).1.arrs.length := by
    have : (allocMapped id st dsRefs).1.arrs.length
        = st.arrs.length + dsRefs.length := a1
    omega
  have hfresh : ∀ r' ∈ (classificationGet st dsRefs minRow maxRow).2,
      st.arrs.length ≤ r' := by
    intro r' hr'
    rw [hsnd] at hr'
    rcases b3 r' hr' with h | h
    · simp at h
    · omega
  refine ⟨hfresh, ?_⟩
  intro f r hr
  have hrlt : r < st.arrs.length := hin r hr
  have hne : ∀ r' ∈ (classificationGet st dsRefs minRow maxRow).2, r ≠ r' := by
    intro r' hr' he
    exact absurd (hfresh r' hr') (by omega)
  rw [repairInPlace_read f _ _ r hne, hfst, b2 r (by omega)]
  exact a2 r hrlt


/-- Witness for `get_repairs_copies_only`: extracting the single stored array
and clamping the returned copies leaves the stored array untouched. -/
theorem get_repairs_copies_only_witness :
    (∀ r ∈ ([0] : List Nat), r < stW.arrs.length)
    ∧ (∀ r' ∈ (classificationGet stW [0] 0 2).2, stW.arrs.length ≤ r')
    ∧ readRef (repairInPlace clampMat (classificationGet stW [0] 0 2).1
        (classificationGet stW [0] 0 2).2) 0 = readRef stW 0 :=
  ⟨by decide,
   (get_repairs_copies_only stW [0] 0 2 (by decide)).1,
   (get_repairs_copies_only stW [0] 0 2 (by decide)).2 clampMat 0 (by decide)⟩

theorem length_vclBodies (lines : List SdrLine) :
    (vclBodies lines).length = numVcl lines := by
  induction lines with
  | nil => rfl
  | cons l rest ih =>
      cases l <;> simp [vclBodies, numVcl, List.countP_cons] at ih ⊢ <;> omega

theorem length_dclBodies (lines : List SdrLine) :
    (dclBodies lines).length = numDcl lines := by
  induction lines with
  | nil => rfl
  | cons l rest ih =>
      cases l <;> simp [dclBodies, numDcl, List.countP_cons] at ih ⊢ <;> omega

theorem readSdr_fold_wf :
    ∀ (lines : List SdrLine) (st : RState),
      wfFrom st.lastVcl.isSome lines = true →
      (∀ sv, st.lastVcl = some sv → sv.length = 39) →
      ∃ st', lines.foldlM readSdrStep st = .ok st'
        ∧ st'.speeds = st.speeds ++ (vclBodies lines).map decodeSpeeds
        ∧ st'.dirs = st.dirs ++ (dclBodies lines).map decodeDirs
        ∧ st'.timestamps.length = st.timestamps.length + numSdr lines := by
  intro lines
  induction lines with
  | nil =>
      intro st _ _
      exact ⟨st, rfl, by simp [vclBodies], by simp [dclBodies], by simp [numSdr]⟩
  | cons l rest ih =>
      intro st hwf hlast
      cases l with
      | hline tokens =>
          simp only [wfFrom, Bool.and_eq_true] at hwf
          obtain ⟨htok, hrest⟩ := hwf
          obtain ⟨hs, hhs⟩ := Option.isSome_iff_exists.mp htok
          by_cases hh : st.heights.isEmpty
          · have hstep : readSdrStep st (.hline tokens) = .ok { st with heights := hs } := by
              simp only [readSdrStep]
              rw [if_pos hh, hhs]
            obtain ⟨st', h1, h2, h3, h4⟩ := ih { st with heights := hs } hrest hlast
            refine ⟨st', ?_, ?_, ?_, ?_⟩
            · simpa [List.foldlM_cons, hstep] using h1
            · simpa [vclBodies] using h2
            · simpa [dclBodies] using h3
            · simpa [numSdr, List.countP_cons] using h4
          · have hstep : readSdrStep st (.hline tokens) = .ok st := by
              simp [readSdrStep, hh]
            obtain ⟨st', h1, h2, h3, h4⟩ := ih st hrest hlast
            refine ⟨st', ?_, ?_, ?_, ?_⟩
            · simpa [List.foldlM_cons, hstep] using h1
            · simpa [vclBodies] using h2
            · simpa [dclBodies] using h3
            · simpa [numSdr, List.countP_cons] using h4
      | vcl cells =>
          simp only [wfFrom, Bool.and_eq_true, beq_iff_eq] at hwf
          obtain ⟨hlen, hrest⟩ := hwf
          have hstep : readSdrStep st (.vcl cells)
              = .ok { st with speeds := st.speeds ++ [decodeSpeeds cells],
                              lastVcl := some cells } := by
            simp [readSdrStep, decodeSpeeds, hlen]
          obtain ⟨st', h1, h2, h3, h4⟩ :=
            ih { st with speeds := st.speeds ++ [decodeSpeeds cells], lastVcl := some cells }
              (by simpa using hrest)
              (by intro sv hsv; cases hsv; exact hlen)
          refine ⟨st', ?_, ?_, ?_, ?_⟩
          · simpa [List.foldlM_cons, hstep] using h1
          · simpa [vclBodies, List.append_assoc] using h2
          · simpa [dclBodies] using h3
          · simpa [numSdr, List.countP_cons] using h4
      | dcl cells =>
          simp only [wfFrom, Bool.and_eq_true] at hwf
          obtain ⟨hvcl, hrest⟩ := hwf
          obtain ⟨sv, hsv⟩ := Option.isSome_iff_exists.mp hvcl
          have hsv39 : sv.length = 39 := hlast sv hsv
          have hstep : readSdrStep st (.dcl cells)
              = .ok { st with dirs := st.dirs ++ [decodeDirs cells] } := by
            simp [readSdrStep, hsv, hsv39, decodeDirs]
          obtain ⟨st', h1, h2, h3, h4⟩ :=
            ih { st with dirs := st.dirs ++ [decodeDirs cells] }
              (by simpa [hsv] using hrest)
              (by intro sv' hsv'; simp only at hsv'; rw [hsv] at hsv'; cases hsv'; exact hsv39)
          refine ⟨st', ?_, ?_, ?_, ?_⟩
          · simpa [List.foldlM_cons, hstep] using h1
          · simpa [vclBodies] using h2
          · simpa [dclBodies, List.append_assoc] using h3
          · simpa [numSdr, List.countP_cons] using h4
      | sdr ts =>
          simp only [wfFrom, Bool.and_eq_true] at hwf
          obtain ⟨hts, hrest⟩ := hwf
          obtain ⟨t, ht⟩ := Option.isSome_iff_exists.mp hts
          have hstep : readSdrStep st (.sdr ts)
              = .ok { st with timestamps := st.timestamps ++ [t] } := by
            simp [readSdrStep, ht]
          obtain ⟨st', h1, h2, h3, h4⟩ :=
            ih { st with timestamps := st.timestamps ++ [t] } hrest hlast
          refine ⟨st', ?_, ?_, ?_, ?_⟩
          · simpa [List.foldlM_cons, hstep] using h1
          · simpa [vclBodies] using h2
          · simpa [dclBodies] using h3
          · simp only [numSdr, List.countP_cons] at h4 ⊢
            simp at h4 ⊢
            omega
      | other =>
          simp only [wfFrom] at hwf
          obtain ⟨st', h1, h2, h3, h4⟩ := ih st hwf hlast
          refine ⟨st', ?_, ?_, ?_, ?_⟩
          · simpa [List.foldlM_cons, readSdrStep] using h1
          · simpa [vclBodies] using h2
          · simpa [dclBodies] using h3
          · simpa [numSdr, List.countP_cons] using h4

/-- C5 (counterexample).  The claim's "if and only if" fails in the
"only if" direction: a file whose speed/direction/timestamp record counts all
agree can still fail fatally.  `read_sdr` also asserts that every speed line
splits into exactly 39 cells (`assert(len(speed_parse) == 39)`), so a file
with one `SDR` line, one 40-cell `VCL` line, and one 40-cell `DCL` line —
equal counts of each record kind — aborts on that width assertion. -/
theorem read_sdr_counterexample :
    (numVcl [.sdr (some 120101000000),
             .vcl (List.replicate 40 (some 1)),
             .dcl (List.replicate 40 (some 1))] = 1
      ∧ numDcl [.sdr (some 120101000000),
                .vcl (List.replicate 40 (some 1)),
                .dcl (List.replicate 40 (some 1))] = 1
      ∧ numSdr [.sdr (some 120101000000),
                .vcl (List.replicate 40 (some 1)),
                .dcl (List.replicate 40 (some 1))] = 1)
    ∧ read_sdr [.sdr (some 120101000000),
                .vcl (List.replicate 40 (some 1)),
                .dcl (List.replicate 40 (some 1))]
        = .error "AssertionError: len(speed_parse) != 39" :=
  ⟨by decide, rfl⟩

/-- C5 (amended).  For a structurally well-formed file (every speed line
has exactly 39 cells, every direction line is preceded by some speed line,
and height/timestamp literals parse), parsing fails fatally if and only if
the numbers of speed, direction, and timestamp records disagree; moreover on
success each value vector records an unparseable cell as the missing-value
sentinel (`NO_DATA` for speeds, `int(NO_DATA)` for directions) and never
propagates it as an error.  Without the width assumption the "only if"
direction is false (see the counterexample): a 39-cell width violation also
aborts parsing. -/
theorem read_sdr_amended (lines : List SdrLine) (hwf : wfFrom false lines = true) :
    ((∃ out, read_sdr lines = .ok out)
        ↔ (numVcl lines = numDcl lines ∧ numDcl lines = numSdr lines))
    ∧ ∀ heights ts speeds dirs,
        read_sdr lines = .ok (heights, ts, speeds, dirs) →
          speeds = (vclBodies lines).map decodeSpeeds
          ∧ dirs = (dclBodies lines).map decodeDirs := by
  obtain ⟨st', hfold, hsp, hdr, hts⟩ :=
    readSdr_fold_wf lines ⟨[], [], [], [], none⟩ hwf (by intro sv h; cases h)
  simp only [List.nil_append] at hsp hdr
  have hspLen : st'.speeds.length = numVcl lines := by
    rw [hsp, List.length_map, length_vclBodies]
  have hdrLen : st'.dirs.length = numDcl lines := by
    rw [hdr, List.length_map, length_dclBodies]
  have htsLen : st'.timestamps.length = numSdr lines := by
    simpa using hts
  have hrun : read_sdr lines
      = if st'.speeds.length = st'.dirs.length ∧ st'.dirs.length = st'.timestamps.length
        then .ok (st'.heights, st'.timestamps, st'.speeds, st'.dirs)
        else .error "AssertionError: record count mismatch" := by
    simp only [read_sdr, hfold]
    rfl
  constructor
  · constructor
    · rintro ⟨out, hout⟩
      rw [hrun] at hout
      by_cases hc : st'.speeds.length = st'.dirs.length
          ∧ st'.dirs.length = st'.timestamps.length
      · omega
      · rw [if_neg hc] at hout
        cases hout
    · intro hc
      rw [hrun, if_pos (by omega)]
      exact ⟨_, rfl⟩
  · intro heights ts speeds dirs hok
    rw [hrun] at hok
    by_cases hc : st'.speeds.length = st'.dirs.length
        ∧ st'.dirs.length = st'.timestamps.length
    · rw [if_pos hc] at hok
      rcases hok with ⟨⟩
      exact ⟨hsp, hdr⟩
    · rw [if_neg hc] at hok
      cases hok

/-- Witness for `read_sdr_amended`: a well-formed sparse file with one record
group whose speed line has one malformed cell; parsing succeeds and the
malformed cell comes out as the sentinel. -/
theorem read_sdr_amended_witness :
    wfFrom false [.hline [some 10], .sdr (some 120101000000),
        .vcl (some 1 :: none :: List.replicate 37 (some 2)),
        .dcl (List.replicate 39 (some 3))] = true
    ∧ (((∃ out, read_sdr [.hline [some 10], .sdr (some 120101000000),
            .vcl (some 1 :: none :: List.replicate 37 (some 2)),
            .dcl (List.replicate 39 (some 3))] = .ok out)
          ↔ (numVcl [.hline [some 10], .sdr (some 120101000000),
                .vcl (some 1 :: none :: List.replicate 37 (some 2)),
                .dcl (List.replicate 39 (some 3))]
              = numDcl [.hline [some 10], .sdr (some 120101000000),
                  .vcl (some 1 :: none :: List.replicate 37 (some 2)),
                  .dcl (List.replicate 39 (some 3))]
            ∧ numDcl [.hline [some 10], .sdr (some 120101000000),
                  .vcl (some 1 :: none :: List.replicate 37 (some 2)),
                  .dcl (List.replicate 39 (some 3))]
              = numSdr [.hline [some 10], .sdr (some 120101000000),
                  .vcl (some 1 :: none :: List.replicate 37 (some 2)),
                  .dcl (List.replicate 39 (some 3))]))
        ∧ ∀ heights ts speeds dirs,
            read_sdr [.hline [some 10], .sdr (some 120101000000),
                .vcl (some 1 :: none :: List.replicate 37 (some 2)),
                .dcl (List.replicate 39 (some 3))] = .ok (heights, ts, speeds, dirs) →
              speeds = (vclBodies [.hline [some 10], .sdr (some 120101000000),
                  .vcl (some 1 :: none :: List.replicate 37 (some 2)),
                  .dcl (List.replicate 39 (some 3))]).map decodeSpeeds
              ∧ dirs = (dclBodies [.hline [some 10], .sdr (some 120101000000),
                  .vcl (some 1 :: none :: List.replicate 37 (some 2)),
                  .dcl (List.replicate 39 (some 3))]).map decodeDirs) :=
  ⟨by decide,
   read_sdr_amended [.hline [some 10], .sdr (some 120101000000),
      .vcl (some 1 :: none :: List.replicate 37 (some 2)),
      .dcl (List.replicate 39 (some 3))] (by decide)⟩


theorem foldlM_preserve {α β : Type} {P : β → Prop} (step : β → α → Except String β)
    (hstep : ∀ b a b', step b a = .ok b' → P b → P b') :
    ∀ (l : List α) (b b'), l.foldlM step b = .ok b' → P b → P b' := by
  intro l
  induction l with
  | nil =>
      intro b b' hfold hb
      rcases hfold with ⟨⟩
      exact hb
  | cons a l ih =>
      intro b b' hfold hb
      rw [List.foldlM_cons] at hfold
      rcases hs : step b a with _ | mid
      · rw [hs] at hfold
        cases hfold
      · rw [hs] at hfold
        exact ih mid b' hfold (hstep b a mid hs hb)

theorem setCell_shape {h : Nat} {d d' : Cube} {b t i : Nat} {v : ℚ}
    (hok : setCell d b t i v = .ok d') (hsh : CubeShaped h d) : CubeShaped h d' := by
  unfold setCell at hok
  rcases hb : d.get? b with _ | band
  · rw [hb] at hok
    cases hok
  · rw [hb] at hok
    dsimp only at hok
    rcases ht : band.get? t with _ | row
    · rw [ht] at hok
      cases hok
    · rw [ht] at hok
      dsimp only at hok
      by_cases hi : i < row.length
      · rw [if_pos hi] at hok
        rcases hok with ⟨⟩
        obtain ⟨hlen, hmem⟩ := hsh
        have hbandMem : band ∈ d := List.get?_mem hb
        have hrowMem : row ∈ band := List.get?_mem ht
        obtain ⟨hbl, hbr⟩ := hmem band hbandMem
        refine ⟨by simpa using hlen, ?_⟩
        intro b' hb'
        rcases List.mem_or_eq_of_mem_set hb' with hb' | rfl
        · exact hmem b' hb'
        · refine ⟨by simpa using hbl, ?_⟩
          intro row' hrow'
          rcases List.mem_or_eq_of_mem_set hrow' with hrow' | rfl
          · exact hbr row' hrow'
          · simpa using hbr row hrowMem
      · rw [if_neg hi] at hok
        cases hok

theorem writeRecord_shape {h : Nat} {d d' : Cube} {t : Nat}
    {speeds : List ℚ} {dirs : List Int}
    (hok : writeRecord d t speeds dirs = .ok d') (hsh : CubeShaped h d) :
    CubeShaped h d' := by
  refine foldlM_preserve _ ?_ _ d d' hok hsh
  intro d1 i d2 hstep hd1
  simp only at hstep
  rcases h1 : setCell d1 0 t i (speeds.getD i 0) with _ | dmid
  · rw [h1] at hstep
    cases hstep
  · rw [h1] at hstep
    exact setCell_shape hstep (setCell_shape h1 hd1)

theorem projectRecords_shape {h : Nat} {timestamps : List Nat}
    {speeds : List (List ℚ)} {directions : List (List Int)} {base d : Cube}
    (hok : projectRecords timestamps speeds directions base = .ok d)
    (hsh : CubeShaped h base) : CubeShaped h d := by
  refine foldlM_preserve _ ?_ _ base d hok hsh
  intro d1 j d2 hstep hd1
  rcases ht : timestamps.get? j with _ | ts
  · rw [ht] at hstep
    cases hstep
  · rw [ht] at hstep
    exact writeRecord_shape hstep hd1

theorem base_cube_shaped (h : Nat) :
    CubeShaped h
      (List.replicate 2 (List.replicate MAX_TIMESTAMPS (List.replicate h NO_DATA))) := by
  refine ⟨by simp, ?_⟩
  intro b hb
  rw [List.eq_of_mem_replicate hb]
  refine ⟨by simp, ?_⟩
  intro row hrow
  rw [List.eq_of_mem_replicate hrow]
  simp

/-- C3 (amended).  For every successfully constructed `DaySource`:
the timestamp list has exactly `MAX_TIMESTAMPS` entries; whenever the number
of parsed records differs from `MAX_TIMESTAMPS` (the code's trigger — it
compares the raw record count, not the number of distinct records) the
timestamps are the synthetic gap-free sequence regenerated from the first
parsed record's `YYMMDD` date and the slot index; when the record count is
exactly `MAX_TIMESTAMPS` the original per-record timestamps are kept; and the
data cube has shape 2 × `MAX_TIMESTAMPS` × `len(heights)`. -/
theorem extract_bands_amended (heights : List Int) (timestamps : List Nat)
    (speeds : List (List ℚ)) (directions : List (List Int)) (d : DaySource)
    (hok : extractBands heights timestamps speeds directions = .ok d) :
    d.timestamps.length = MAX_TIMESTAMPS
    ∧ (timestamps.length ≠ MAX_TIMESTAMPS →
        ∀ t0, timestamps.head? = some t0 →
          d.timestamps = regenTimestamps (t0 / 10 ^ 6))
    ∧ (timestamps.length = MAX_TIMESTAMPS → d.timestamps = timestamps)
    ∧ d.heights = heights
    ∧ CubeShaped heights.length d.data := by
  unfold extractBands at hok
  rcases hp : projectRecords timestamps speeds directions
      (List.replicate 2 (List.replicate MAX_TIMESTAMPS
        (List.replicate heights.length NO_DATA))) with _ | data
  · rw [hp] at hok
    cases hok
  · rw [hp] at hok
    have hshape : CubeShaped heights.length data :=
      projectRecords_shape hp (base_cube_shaped heights.length)
    replace hok : (if timestamps.length = MAX_TIMESTAMPS then
          Except.ok { heights := heights, timestamps := timestamps, data := data }
        else
          match timestamps.head? with
          | none => Except.error "IndexError: self.timestamps[0]"
          | some t0 =>
              Except.ok { heights := heights,
                          timestamps := regenTimestamps (t0 / 10 ^ 6),
                          data := data }) = Except.ok d := hok
    by_cases hlen : timestamps.length = MAX_TIMESTAMPS
    · rw [if_pos hlen] at hok
      rcases hok with ⟨⟩
      exact ⟨hlen, fun hc => absurd hlen hc, fun _ => rfl, rfl, hshape⟩
    · rw [if_neg hlen] at hok
      rcases hh : timestamps.head? with _ | t0
      · rw [hh] at hok
        cases hok
      · rw [hh] at hok
        rcases hok with ⟨⟩
        refine ⟨by simp [regenTimestamps], ?_, fun hc => absurd hc hlen, rfl, hshape⟩
        intro _ t0' ht0'
        rcases ht0' with ⟨⟩
        rfl


/-- C3 (counterexample).  The claim's trigger is "fewer *distinct* parsed
records than the full slot count", but `_extract_bands` tests
`len(self.timestamps) != MAX_TIMESTAMPS` — the raw record count.  A file with
288 records two of which coincide has only 287 distinct records, yet the
constructed `DaySource` keeps the original per-record timestamps verbatim
(its list still contains the duplicate and differs from the synthetic
gap-free sequence), so no regeneration with exactly one timestamp per slot
takes place. -/
theorem extract_bands_counterexample :
    dupTs.length = MAX_TIMESTAMPS
    ∧ dupTs.get? 0 = dupTs.get? 1
    ∧ ((extractBands [10] dupTs (List.replicate 288 []) (List.replicate 288 [])).toOption.map
        DaySource.timestamps) = some dupTs
    ∧ dupTs ≠ regenTimestamps 120101 := by
  refine ⟨by decide, by decide, by decide, by decide⟩


/-- Witness for `extract_bands_amended`: a one-record day constructs
successfully, regenerates the full synthetic timestamp axis, and has the
fixed cube shape. -/
theorem extract_bands_amended_witness :
    extractBands [5] [120101000000] [[]] [[]] = .ok sparseDay
    ∧ (sparseDay.timestamps.length = MAX_TIMESTAMPS
        ∧ (([120101000000] : List Nat).length ≠ MAX_TIMESTAMPS →
            ∀ t0, ([120101000000] : List Nat).head? = some t0 →
              sparseDay.timestamps = regenTimestamps (t0 / 10 ^ 6))
        ∧ (([120101000000] : List Nat).length = MAX_TIMESTAMPS →
            sparseDay.timestamps = [120101000000])
        ∧ sparseDay.heights = [5]
        ∧ CubeShaped ([(5 : Int)] : List Int).length sparseDay.data) :=
  ⟨rfl, extract_bands_amended [5] [120101000000] [[]] [[]] sparseDay rfl⟩

theorem spacingOk_pairwise :
    ∀ (ts : List DateTime), spacingOk ts = true →
      ∀ i a b, ts.get? i = some a → ts.get? (i + 1) = some b →
        toMinutes b = toMinutes a + 5 := by
  intro ts
  induction ts with
  | nil =>
      intro _ i a b ha _
      simp at ha
  | cons x rest ih =>
      intro hok i a b ha hb
      cases rest with
      | nil =>
          cases i with
          | zero => simp at hb
          | succ j => simp at hb
      | cons y rest' =>
          simp only [spacingOk, Bool.and_eq_true, beq_iff_eq] at hok
          obtain ⟨hxy, hrest⟩ := hok
          cases i with
          | zero =>
              simp only [List.get?] at ha hb
              rcases ha with ⟨⟩
              rcases hb with ⟨⟩
              exact hxy
          | succ j =>
              exact ih hrest j a b (by simpa using ha) (by simpa using hb)

theorem mkCollection_ok_inv {found : List Source} {c : Collection}
    (h : mkCollection found = .ok c) :
    c.sources = buildSourceList found
    ∧ c.dataset = concatDataset (buildSourceList found)
    ∧ c.rawTimestamps = assembledRaw found
    ∧ (assembledRaw found).mapM timestamp_to_datetime = some c.timestamps
    ∧ spacingOk c.timestamps = true
    ∧ c.nightIndex = (List.range ((buildSourceList found).length - 1)).map
        (fun i =>
          { name := (((buildSourceList found).get? i).map Source.name).getD 0
            start := i * MAX_TIMESTAMPS + NIGHT_START_INDEX
            stop := i * MAX_TIMESTAMPS + NIGHT_STOP_INDEX : NightDesc })
    ∧ c.heights = (((buildSourceList found).head?).map Source.heights).getD [] := by
  unfold mkCollection at h
  by_cases h0 : found.isEmpty
  · rw [if_pos h0] at h
    cases h
  · rw [if_neg h0] at h
    by_cases h1 : !(found.all (fun s => nameValid s.name))
    · rw [if_pos h1] at h
      cases h
    · rw [if_neg h1] at h
      dsimp only at h
      rcases hm : (assembledRaw found).mapM timestamp_to_datetime with _ | ts
      · rw [hm] at h
        cases h
      · rw [hm] at h
        dsimp only at h
        by_cases hs : spacingOk ts
        · rw [if_pos hs] at h
          rcases h with ⟨⟩
          exact ⟨rfl, rfl, rfl, rfl, hs, rfl, rfl⟩
        · rw [if_neg hs] at h
          cases h

/-- C1 (confirmed).  For every successfully assembled collection, every
adjacent pair of datetimes on the final concatenated timestamp axis is
exactly one sampling interval (5 minutes) apart; and whenever the assembled
axis violates that spacing, `SodarCollection.__init__` fails (the assertion
loop aborts construction) instead of returning a collection. -/
theorem collection_uniform_spacing (found : List Source) :
    (∀ c, mkCollection found = .ok c →
        ∀ i a b, c.timestamps.get? i = some a → c.timestamps.get? (i + 1) = some b →
          toMinutes b = toMinutes a + 5)
    ∧ (∀ ts, (assembledRaw found).mapM timestamp_to_datetime = some ts →
        spacingOk ts = false → ∀ c, mkCollection found ≠ .ok c) := by
  constructor
  · intro c hok i a b ha hb
    obtain ⟨-, -, -, -, hspace, -, -⟩ := mkCollection_ok_inv hok
    exact spacingOk_pairwise c.timestamps hspace i a b ha hb
  · intro ts hts hfalse c hok
    obtain ⟨-, -, -, hm, hspace, -, -⟩ := mkCollection_ok_inv hok
    rw [hts] at hm
    rcases hm with ⟨⟩
    rw [hspace] at hfalse
    cases hfalse


/-- Witness for `collection_uniform_spacing`: on `gapSource` the converted
axis exists, fails the spacing check, and collection construction therefore
fails for every candidate result. -/
theorem collection_uniform_spacing_witness :
    (assembledRaw [gapSource]).mapM timestamp_to_datetime
      = some [⟨2012, 1, 1, 0, 0⟩, ⟨2012, 1, 1, 0, 10⟩]
    ∧ spacingOk [⟨2012, 1, 1, 0, 0⟩, ⟨2012, 1, 1, 0, 10⟩] = false
    ∧ ∀ c, mkCollection [gapSource] ≠ .ok c :=
  ⟨by decide, by decide,
   (collection_uniform_spacing [gapSource]).2
     [⟨2012, 1, 1, 0, 0⟩, ⟨2012, 1, 1, 0, 10⟩] (by decide) (by decide)⟩

theorem zipWith_append_mem {α : Type} :
    ∀ (xs ys : List (List α)) (z : List α),
      z ∈ List.zipWith (· ++ ·) xs ys → ∃ x ∈ xs, ∃ y ∈ ys, z = x ++ y := by
  intro xs
  induction xs with
  | nil => intro ys z hz; simp at hz
  | cons x xs ih =>
      intro ys z hz
      cases ys with
      | nil => simp at hz
      | cons y ys =>
          simp only [List.zipWith_cons_cons, List.mem_cons] at hz
          rcases hz with rfl | hz
          · exact ⟨x, List.mem_cons_self x xs, y, List.mem_cons_self y ys, rfl⟩
          · obtain ⟨x', hx', y', hy', rfl⟩ := ih ys z hz
            exact ⟨x', List.mem_cons_of_mem x hx', y', List.mem_cons_of_mem y hy', rfl⟩

theorem sentinel_block_get {A C : List (List ℚ)} {h : Nat}
    (hA : A.length = MAX_TIMESTAMPS) :
    ∀ i row, MAX_TIMESTAMPS ≤ i → i < 3 * MAX_TIMESTAMPS →
      (((A ++ List.replicate MAX_TIMESTAMPS (List.replicate h NO_DATA))
          ++ List.replicate MAX_TIMESTAMPS (List.replicate h NO_DATA)) ++ C)[i]?
        = some row → ∀ x ∈ row, x = NO_DATA := by
  intro i row hi1 hi2 hget x hx
  rw [List.getElem?_append, if_pos (by simp [hA, MAX_TIMESTAMPS] at hi2 ⊢; omega)] at hget
  by_cases hmid : i < 2 * MAX_TIMESTAMPS
  · rw [List.getElem?_append, if_pos (by simp [hA]; omega)] at hget
    rw [List.getElem?_append, if_neg (by simp [hA]; omega)] at hget
    rw [List.getElem?_replicate] at hget
    rw [if_pos (by simp [hA]; omega)] at hget
    rcases hget with ⟨⟩
    exact List.eq_of_mem_replicate hx
  · rw [List.getElem?_append, if_neg (by simp [hA]; omega)] at hget
    rw [List.getElem?_replicate] at hget
    rw [if_pos (by simp [hA]; omega)] at hget
    rcases hget with ⟨⟩
    exact List.eq_of_mem_replicate hx

/-- C4 (confirmed).  Given real sources for days `D1` and `D4` only
(date delta of three days), the assembler inserts exactly one `_FakeSource`
per missing date, in ascending order, built from the first source's heights
and timestamp template: the final source list is
`[D1, fake(D1+1), fake(D1+2), D4]` with one entry per calendar day, the
concatenated time axis spans exactly 4 day-equivalents per band, and every
cell of the slots belonging to the two synthesized days holds the
missing-value sentinel. -/
theorem gap_days_synthesized (s1 s4 : Source)
    (h14 : nameToDoy s4.name = nameToDoy s1.name + 3)
    (hsh1 : s1.data.length = 2 ∧ ∀ b ∈ s1.data, b.length = MAX_TIMESTAMPS)
    (hsh4 : s4.data.length = 2 ∧ ∀ b ∈ s4.data, b.length = MAX_TIMESTAMPS) :
    buildSourceList [s1, s4]
      = [s1,
         mkFakeSource (doyToName (nameToDoy s1.name + 1)) s1.heights s1.timestamps,
         mkFakeSource (doyToName (nameToDoy s1.name + 2)) s1.heights s1.timestamps,
         s4]
    ∧ (buildSourceList [s1, s4]).length = 4
    ∧ (∀ band ∈ concatDataset (buildSourceList [s1, s4]),
        band.length = 4 * MAX_TIMESTAMPS
        ∧ ∀ i row, MAX_TIMESTAMPS ≤ i → i < 3 * MAX_TIMESTAMPS →
            band[i]? = some row → ∀ x ∈ row, x = NO_DATA) := by
  have hfd : fakeDatesBetween (nameToDoy s1.name) (nameToDoy s4.name)
      = [nameToDoy s1.name + 1, nameToDoy s1.name + 2] := by
    unfold fakeDatesBetween
    rw [h14, if_pos (by omega)]
    have h2 : nameToDoy s1.name + 3 - nameToDoy s1.name - 1 = 2 := by omega
    rw [h2]
    rfl
  have hlist : buildSourceList [s1, s4]
      = [s1,
         mkFakeSource (doyToName (nameToDoy s1.name + 1)) s1.heights s1.timestamps,
         mkFakeSource (doyToName (nameToDoy s1.name + 2)) s1.heights s1.timestamps,
         s4] := by
    simp [buildSourceList, buildSourceGo, hfd]
  refine ⟨hlist, by rw [hlist]; rfl, ?_⟩
  obtain ⟨A, B, hAB⟩ := List.length_eq_two.mp hsh1.1
  obtain ⟨C, D, hCD⟩ := List.length_eq_two.mp hsh4.1
  have hA : A.length = MAX_TIMESTAMPS := hsh1.2 A (by rw [hAB]; simp)
  have hB : B.length = MAX_TIMESTAMPS := hsh1.2 B (by rw [hAB]; simp)
  have hC : C.length = MAX_TIMESTAMPS := hsh4.2 C (by rw [hCD]; simp)
  have hD : D.length = MAX_TIMESTAMPS := hsh4.2 D (by rw [hCD]; simp)
  have hconcat : concatDataset (buildSourceList [s1, s4])
      = [((A ++ List.replicate MAX_TIMESTAMPS (List.replicate s1.heights.length NO_DATA))
            ++ List.replicate MAX_TIMESTAMPS (List.replicate s1.heights.length NO_DATA)) ++ C,
         ((B ++ List.replicate MAX_TIMESTAMPS (List.replicate s1.heights.length NO_DATA))
            ++ List.replicate MAX_TIMESTAMPS (List.replicate s1.heights.length NO_DATA)) ++ D] := by
    rw [hlist]
    simp [concatDataset, mkFakeSource, hAB, hCD]
  intro band hband
  rw [hconcat] at hband
  simp only [List.mem_cons, List.not_mem_nil, or_false] at hband
  rcases hband with rfl | rfl
  · refine ⟨?_, sentinel_block_get hA⟩
    simp only [List.length_append, List.length_replicate, hA, hC, MAX_TIMESTAMPS]
  · refine ⟨?_, sentinel_block_get hB⟩
    simp only [List.length_append, List.length_replicate, hB, hD, MAX_TIMESTAMPS]


/-- Witness for `gap_days_synthesized`: real files for Jan 1 and Jan 4 get
fake days Jan 2 and Jan 3 synthesized between them. -/
theorem gap_days_synthesized_witness :
    nameToDoy (dayW 104).name = nameToDoy (dayW 101).name + 3
    ∧ ((dayW 101).data.length = 2 ∧ ∀ b ∈ (dayW 101).data, b.length = MAX_TIMESTAMPS)
    ∧ ((dayW 104).data.length = 2 ∧ ∀ b ∈ (dayW 104).data, b.length = MAX_TIMESTAMPS)
    ∧ (buildSourceList [dayW 101, dayW 104]
        = [dayW 101,
           mkFakeSource (doyToName (nameToDoy (dayW 101).name + 1))
             (dayW 101).heights (dayW 101).timestamps,
           mkFakeSource (doyToName (nameToDoy (dayW 101).name + 2))
             (dayW 101).heights (dayW 101).timestamps,
           dayW 104]
        ∧ (buildSourceList [dayW 101, dayW 104]).length = 4
        ∧ (∀ band ∈ concatDataset (buildSourceList [dayW 101, dayW 104]),
            band.length = 4 * MAX_TIMESTAMPS
            ∧ ∀ i row, MAX_TIMESTAMPS ≤ i → i < 3 * MAX_TIMESTAMPS →
                band[i]? = some row → ∀ x ∈ row, x = NO_DATA)) :=
  ⟨by decide, ⟨by decide, by decide⟩, ⟨by decide, by decide⟩,
   gap_days_synthesized (dayW 101) (dayW 104) (by decide)
     ⟨by decide, by decide⟩ ⟨by decide, by decide⟩⟩

theorem buildSourceGo_shape (first : Source)
    (hfake : ∀ nm, (mkFakeSource nm first.heights first.timestamps).data.length = 2
        ∧ ∀ b ∈ (mkFakeSource nm first.heights first.timestamps).data,
            b.length = MAX_TIMESTAMPS) :
    ∀ (rest : List Source) (cur : Nat),
      (∀ s ∈ rest, s.data.length = 2 ∧ ∀ b ∈ s.data, b.length = MAX_TIMESTAMPS) →
      ∀ s ∈ buildSourceGo first cur rest,
        s.data.length = 2 ∧ ∀ b ∈ s.data, b.length = MAX_TIMESTAMPS := by
  intro rest
  induction rest with
  | nil => intro cur _ s hs; simp [buildSourceGo] at hs
  | cons t rest ih =>
      intro cur hsh s hs
      simp only [buildSourceGo, List.mem_append, List.mem_map, List.mem_cons] at hs
      rcases hs with ⟨nm, _, rfl⟩ | rfl | hs
      · exact hfake (doyToName nm)
      · exact hsh s (List.mem_cons_self s rest)
      · exact ih (nameToDoy t.name)
          (fun s' hs' => hsh s' (List.mem_cons_of_mem t hs')) s hs

theorem mkFakeSource_shape (nm : Nat) (hts : List Int) (tss : List Nat) :
    (mkFakeSource nm hts tss).data.length = 2
    ∧ ∀ b ∈ (mkFakeSource nm hts tss).data, b.length = MAX_TIMESTAMPS := by
  refine ⟨by simp [mkFakeSource], ?_⟩
  intro b hb
  rw [List.eq_of_mem_replicate hb]
  simp

theorem buildSourceList_shape (found : List Source)
    (hsh : ∀ s ∈ found, s.data.length = 2 ∧ ∀ b ∈ s.data, b.length = MAX_TIMESTAMPS) :
    ∀ s ∈ buildSourceList found,
      s.data.length = 2 ∧ ∀ b ∈ s.data, b.length = MAX_TIMESTAMPS := by
  cases found with
  | nil => intro s hs; simp [buildSourceList] at hs
  | cons s0 rest =>
      intro s hs
      simp only [buildSourceList, List.mem_cons] at hs
      rcases hs with rfl | hs
      · exact hsh s (List.mem_cons_self s rest)
      · exact buildSourceGo_shape s0
          (fun nm => mkFakeSource_shape nm s0.heights s0.timestamps)
          rest (nameToDoy s0.name)
          (fun s' hs' => hsh s' (List.mem_cons_of_mem s0 hs')) s hs

theorem concatFold_shape :
    ∀ (rest : List Source) (acc : Cube) (m : Nat),
      acc.length = 2 → (∀ b ∈ acc, b.length = m) →
      (∀ s ∈ rest, s.data.length = 2 ∧ ∀ b ∈ s.data, b.length = MAX_TIMESTAMPS) →
      (rest.foldl (fun acc t => List.zipWith (· ++ ·) acc t.data) acc).length = 2
      ∧ ∀ band ∈ rest.foldl (fun acc t => List.zipWith (· ++ ·) acc t.data) acc,
          band.length = m + rest.length * MAX_TIMESTAMPS := by
  intro rest
  induction rest with
  | nil =>
      intro acc m h2 hm _
      refine ⟨h2, ?_⟩
      intro band hb
      simpa using hm band hb
  | cons t rest ih =>
      intro acc m h2 hm hsh
      obtain ⟨ht2, htb⟩ := hsh t (List.mem_cons_self t rest)
      have hlen : (List.zipWith (· ++ ·) acc t.data).length = 2 := by
        simp [List.length_zipWith, h2, ht2]
      have hmem : ∀ b ∈ List.zipWith (· ++ ·) acc t.data,
          b.length = m + MAX_TIMESTAMPS := by
        intro b hb
        obtain ⟨x, hx, y, hy, rfl⟩ := zipWith_append_mem acc t.data b hb
        simp [hm x hx, htb y hy]
      obtain ⟨r2, rb⟩ := ih (List.zipWith (· ++ ·) acc t.data) (m + MAX_TIMESTAMPS)
        hlen hmem (fun s hs => hsh s (List.mem_cons_of_mem t hs))
      refine ⟨r2, ?_⟩
      intro band hb
      have hb' := rb band hb
      simp only [List.length_cons, Nat.succ_mul] at hb' ⊢
      omega

theorem concatDataset_shape (srcs : List Source) (hne : srcs ≠ [])
    (hsh : ∀ s ∈ srcs, s.data.length = 2 ∧ ∀ b ∈ s.data, b.length = MAX_TIMESTAMPS) :
    (concatDataset srcs).length = 2
    ∧ ∀ band ∈ concatDataset srcs, band.length = srcs.length * MAX_TIMESTAMPS := by
  cases srcs with
  | nil => exact absurd rfl hne
  | cons s rest =>
      obtain ⟨hs2, hsb⟩ := hsh s (List.mem_cons_self s rest)
      obtain ⟨r2, rb⟩ := concatFold_shape rest s.data MAX_TIMESTAMPS hs2 hsb
        (fun s' hs' => hsh s' (List.mem_cons_of_mem s hs'))
      refine ⟨r2, ?_⟩
      intro band hb
      have hb' := rb band hb
      simp only [List.length_cons, Nat.succ_mul] at hb' ⊢
      omega

theorem flatten_const_length {α : Type} {k : Nat} :
    ∀ (L : List (List α)), (∀ x ∈ L, x.length = k) →
      L.flatten.length = L.length * k := by
  intro L
  induction L with
  | nil => intro _; simp
  | cons x L ih =>
      intro h
      simp only [List.flatten_cons, List.length_append, List.length_cons,
        h x (List.mem_cons_self x L), ih (fun y hy => h y (List.mem_cons_of_mem x hy))]
      ring

theorem chunkGo_spec {α : Type} {k : Nat} (hk : 0 < k) :
    ∀ (m fuel : Nat) (l : List α), l.length = m * k → l.length ≤ fuel →
      (chunkGo k fuel l).length = m ∧ ∀ ch ∈ chunkGo k fuel l, ch.length = k := by
  intro m
  induction m with
  | zero =>
      intro fuel l hl _
      have : l = [] := List.length_eq_zero.mp (by omega)
      subst this
      cases fuel with
      | zero => exact ⟨rfl, by intro ch h; simp [chunkGo] at h⟩
      | succ fuel =>
          refine ⟨?_, ?_⟩
          · simp [chunkGo]
          · intro ch h
            simp [chunkGo] at h
  | succ m ih =>
      intro fuel l hl hfuel
      have hlpos : 0 < l.length := by
        have : (m + 1) * k = m * k + k := by ring
        omega
      have hlne : l ≠ [] := fun h => by subst h; simp at hlpos
      cases fuel with
      | zero => omega
      | succ fuel =>
          have hcond : ¬(k = 0 ∨ l.isEmpty = true) := by
            rintro (h | h)
            · omega
            · exact hlne (List.isEmpty_iff.mp h)
          have hstep : chunkGo k (fuel + 1) l = l.take k :: chunkGo k fuel (l.drop k) := by
            simp only [chunkGo]
            rw [if_neg hcond]
          have hk_le : k ≤ l.length := by
            have : (m + 1) * k = m * k + k := by ring
            omega
          have hdrop : (l.drop k).length = m * k := by
            simp only [List.length_drop]
            have : (m + 1) * k = m * k + k := by ring
            omega
          obtain ⟨ih1, ih2⟩ := ih fuel (l.drop k) hdrop
            (by simp only [List.length_drop]; omega)
          refine ⟨by simp [hstep, ih1], ?_⟩
          intro ch hch
          rw [hstep] at hch
          rcases List.mem_cons.mp hch with rfl | hch
          · simp [List.length_take]
            omega
          · exact ih2 ch hch

theorem chunkList_spec {α : Type} {k m : Nat} (hk : 0 < k) (l : List α)
    (hl : l.length = m * k) :
    (chunkList k l).length = m ∧ ∀ ch ∈ chunkList k l, ch.length = k :=
  chunkGo_spec hk m l.length l hl (Nat.le_refl _)

theorem mem_of_getElem_eq_some {α : Type} {l : List α} {i : Nat} {a : α}
    (h : l[i]? = some a) : a ∈ l := by
  obtain ⟨hlt, heq⟩ := List.getElem?_eq_some.mp h
  exact heq ▸ List.getElem_mem hlt

/-- C7 (confirmed).  For every successfully assembled collection, the
night descriptor table has exactly one entry fewer than the (gap-filled)
source count; and with at least two sources, night extraction under
`use_all=True` succeeds and returns exactly `source_count - 1` nights, each
reshaped to the fixed night length `NIGHT_SIZE`. -/
theorem night_count_all (found : List Source) (c : Collection)
    (hok : mkCollection found = .ok c)
    (hsh : ∀ s ∈ found, s.data.length = 2 ∧ ∀ b ∈ s.data, b.length = MAX_TIMESTAMPS)
    (h2 : 2 ≤ c.sources.length) (band : Nat) (hband : band < 2) :
    c.nightIndex.length = c.sources.length - 1
    ∧ ∃ nights idx, night_array c band false true none = .ok (nights, idx)
        ∧ idx = c.nightIndex
        ∧ nights.length = c.sources.length - 1
        ∧ ∀ night ∈ nights, night.length = NIGHT_SIZE := by
  obtain ⟨hsrc, hdat, -, -, -, hnight, -⟩ := mkCollection_ok_inv hok
  have hnval : (buildSourceList found).length = c.sources.length := by rw [hsrc]
  have hnlen : c.nightIndex.length = c.sources.length - 1 := by
    rw [hnight]
    simp [hnval]
  refine ⟨hnlen, ?_⟩
  have hsel : selectNightIndex c false true none = c.nightIndex := rfl
  have hneidx : c.nightIndex ≠ [] := by
    intro h
    rw [h] at hnlen
    simp at hnlen
    omega
  have hshapes := buildSourceList_shape found hsh
  have hne' : buildSourceList found ≠ [] := by
    intro h
    rw [h] at hnval
    simp at hnval
    omega
  obtain ⟨hd2, hdb⟩ := concatDataset_shape (buildSourceList found) hne' hshapes
  have hdlen : c.dataset.length = 2 := by rw [hdat]; exact hd2
  have hbandlt : band < c.dataset.length := by omega
  obtain ⟨bd, hbd⟩ : ∃ bd, c.dataset[band]? = some bd :=
    ⟨_, List.getElem?_eq_getElem hbandlt⟩
  have hbdmem : bd ∈ c.dataset := mem_of_getElem_eq_some hbd
  have hbdlen : bd.length = c.sources.length * MAX_TIMESTAMPS := by
    rw [hdat] at hbdmem
    have hlen := hdb bd hbdmem
    rw [hnval] at hlen
    exact hlen
  have hslice : ∀ night ∈ c.nightIndex,
      ((bd.drop night.start).take (night.stop - night.start)).length = NIGHT_SIZE := by
    intro night hmem
    rw [hnight] at hmem
    obtain ⟨i, hi, rfl⟩ := List.mem_map.mp hmem
    have hi' : i < (buildSourceList found).length - 1 := List.mem_range.mp hi
    rw [hnval] at hi'
    simp only [List.length_take, List.length_drop, hbdlen]
    simp only [NIGHT_START_INDEX, NIGHT_STOP_INDEX, NIGHT_SIZE, MAX_TIMESTAMPS]
    omega
  have hflat : (nightSlices bd c.nightIndex).length
      = c.nightIndex.length * NIGHT_SIZE := by
    unfold nightSlices
    rw [flatten_const_length (k := NIGHT_SIZE)]
    · simp
    · intro x hx
      obtain ⟨night, hnight2, rfl⟩ := List.mem_map.mp hx
      exact hslice night hnight2
  have harr : night_array c band false true none
      = .ok (chunkList NIGHT_SIZE (nightSlices bd c.nightIndex), c.nightIndex) := by
    unfold night_array
    rw [hsel]
    rw [if_neg (by simp [hneidx])]
    rw [hbd]
    dsimp only
    rw [if_pos hflat]
  obtain ⟨hclen, hcmem⟩ := chunkList_spec (k := NIGHT_SIZE) (m := c.nightIndex.length)
    (by simp [NIGHT_SIZE, NIGHT_START_INDEX, NIGHT_STOP_INDEX])
    (nightSlices bd c.nightIndex) hflat
  exact ⟨_, _, harr, rfl, by rw [hclen, hnlen], hcmem⟩


/-- Witness for `night_count_all`: two consecutive days assemble, give one
night descriptor, and `use_all` extraction returns one night of `NIGHT_SIZE`
slots. -/
theorem night_count_all_witness :
    mkCollection [dayW 101, dayW 102] = .ok collTwo
    ∧ (∀ s ∈ [dayW 101, dayW 102],
        s.data.length = 2 ∧ ∀ b ∈ s.data, b.length = MAX_TIMESTAMPS)
    ∧ 2 ≤ collTwo.sources.length
    ∧ 0 < 2
    ∧ (collTwo.nightIndex.length = collTwo.sources.length - 1
        ∧ ∃ nights idx, night_array collTwo 0 false true none = .ok (nights, idx)
            ∧ idx = collTwo.nightIndex
            ∧ nights.length = collTwo.sources.length - 1
            ∧ ∀ night ∈ nights, night.length = NIGHT_SIZE) :=
  ⟨rfl, by decide, by decide, by decide,
   night_count_all [dayW 101, dayW 102] collTwo rfl (by decide) (by decide) 0 (by decide)⟩
